import Mathlib

/-!
# GlobalPay chat route: the request/poll bridge

A shallow embedding of `src/frontend/app/api/chat/route.js` (the `POST` handler and
`getMockResponse`).  JavaScript values that reach the handler are JSON data; effects
(`fetch`, the `setTimeout` sleep) are recorded in an explicit trace that is threaded
through the handler, and a thrown exception is an `Except.error` carrying `error.message`.
-/

namespace ChatRoute

/-! ## JavaScript values that come out of `JSON.parse` -/

/-- JSON data as seen by JavaScript, plus `undefined` (the result of reading a property
that is not there).  `num` holds a number by the text that JavaScript prints for it
(`String(n)`: `42`, `0.5`, `1e+21`, and `0` for both zeros), which determines the number;
`obj` lists the own properties of a parsed object, each key once. -/
inductive JsVal where
  | undefined
  | null
  | bool (b : Bool)
  | num (printed : String)
  | str (s : String)
  | arr (items : List JsVal)
  | obj (fields : List (String × JsVal))

/-- JavaScript truthiness (`!v` is the negation): `undefined`, `null`, `false`, `0`, `NaN`
and the empty string are falsy, every other value (arrays and objects included) is
truthy. -/
def JsVal.truthy : JsVal → Bool
  | .undefined => false
  | .null => false
  | .bool b => b
  | .num printed => printed != "0" && printed != "NaN"
  | .str s => s != ""
  | .arr _ => true
  | .obj _ => true

/-- Property read `v.key` (also the destructuring `const { key } = v`) for the property
names the embedded code reads (`message`, `request_id`, `status`, `analysis_result`,
`sender`, `valid`, `success` and the like), none of which exists on a prototype: `none` stands for the `TypeError` raised on `null` and
`undefined`; a primitive or an array has no such property; an object yields its own
property or `undefined`. -/
def JsVal.getProp (v : JsVal) (key : String) : Option JsVal :=
  match v with
  | .undefined => none
  | .null => none
  | .obj fields => some ((fields.lookup key).getD .undefined)
  | _ => some .undefined

/-- Strict comparison `v === s` against a string literal. -/
def JsVal.strictEqStr (v : JsVal) (s : String) : Bool :=
  match v with
  | .str t => t == s
  | _ => false

/-- Logical or `v || fallback` where the fallback is a string literal. -/
def JsVal.orElse (v : JsVal) (fallback : String) : JsVal :=
  if v.truthy then v else .str fallback

/-- Message of the `TypeError` of a value that has no primitive conversion. -/
def toPrimitiveError : String := "Cannot convert object to primitive value"

mutual
/-- String conversion performed by a template literal.  A parsed object prints as
`[object Object]` through `Object.prototype.toString`, unless an own (never callable)
`toString` property shadows it, in which case no conversion exists and a `TypeError` is
thrown; an array joins its converted items with commas. -/
def JsVal.toStr : JsVal → Except String String
  | .undefined => .ok "undefined"
  | .null => .ok "null"
  | .bool b => .ok (if b then "true" else "false")
  | .num printed => .ok printed
  | .str s => .ok s
  | .arr items => JsVal.joinItems items
  | .obj fields =>
    if fields.any (fun kv => kv.1 == "toString") then .error toPrimitiveError
    else .ok "[object Object]"
/-- The `Array.prototype.join` of the items: `null` and `undefined` items print empty. -/
def JsVal.joinItems : List JsVal → Except String String
  | [] => .ok ""
  | .undefined :: rest =>
    match rest with
    | [] => .ok ""
    | _ => (JsVal.joinItems rest).map (fun t => "," ++ t)
  | .null :: rest =>
    match rest with
    | [] => .ok ""
    | _ => (JsVal.joinItems rest).map (fun t => "," ++ t)
  | x :: rest =>
    match JsVal.toStr x with
    | .error msg => .error msg
    | .ok s =>
      match rest with
      | [] => .ok s
      | _ => (JsVal.joinItems rest).map (fun t => s ++ "," ++ t)
end

/-! ## The outside world -/

/-- What a resolved `fetch` gives: the HTTP status and the outcome of `.json()` (the
parsed body, or the message of the `SyntaxError` when the body is not JSON). -/
structure Response where
  status : Nat
  json : Except String JsVal

/-- The `ok` flag of a fetch response: the status is in the range 200 to 299. -/
def Response.ok (r : Response) : Bool :=
  decide (200 ≤ r.status) && decide (r.status ≤ 299)

/-- Outcome of one `await fetch(...)`: the response, or the message of the error the
promise rejects with (a network failure). -/
abbrev FetchResult := Except String Response

/-- Behaviour of the external agent during one run of the handler: the outcome of the
start call and, for each attempt number (from 0), the outcome of that status call. -/
structure Agent where
  start : FetchResult
  poll : Nat → FetchResult

/-- An observable effect of the handler. -/
inductive Event where
  | fetch (method : String) (url : String) (body : Option JsVal)
  | sleep (ms : Nat)

/-- Body of the JSON answer of the route. -/
structure ChatBody where
  response : JsVal
  status : String
  error : Option String

/-- Result of `NextResponse.json(body, { status })`; the status is 200 when not given. -/
structure NextResponse where
  body : ChatBody
  status : Nat

/-- A computation that may throw, together with the effects performed so far. -/
structure Run (α : Type) where
  trace : List Event
  result : Except String α

/-! ## The handler -/

/-- Line 8. -/
def AI_AGENT_URL : String := "http://0.0.0.0:8001"

/-- Line 44. -/
def maxAttempts : Nat := 15

/-- Line 45, in milliseconds. -/
def pollInterval : Nat := 2000

/-- Line 73. -/
def timeoutMessage : String := "Request timed out. The agent took too long to respond."

/-- Line 38. -/
def missingIdMessage : String := "AI Agent did not return a valid request_id."

/-- Line 31. -/
def startFailedMessage (status : Nat) : String :=
  "AI Agent start request failed with status: " ++ toString status

/-- Line 61. -/
def placeholder : String := "Process complete, but no response content."

/-- Line 79. -/
def apology : String :=
  "I'm experiencing some technical difficulties right now. Please try again in a moment."

/-- Message of the `TypeError` of destructuring `null` or `undefined` (V8 wording). -/
def destructureError (key source : String) (v : JsVal) : String :=
  "Cannot destructure property '" ++ key ++ "' of '" ++ source ++ "' as it is " ++
    (match v with | .null => "null" | _ => "undefined") ++ "."

/-- Message of the `TypeError` of reading a property of `null` or `undefined` (V8 wording). -/
def readError (key : String) (v : JsVal) : String :=
  "Cannot read properties of " ++ (match v with | .null => "null" | _ => "undefined") ++
    " (reading '" ++ key ++ "')"

/-- Lines 89-98.  `message.toLowerCase()` throws on a value that is not a string.  The two
keywords are ASCII and no character outside ASCII lowercases to one of their letters, so
lowercasing the ASCII letters decides the two `includes` tests. -/
def getMockResponse (message : JsVal) : Except String String :=
  match message with
  | .str s =>
    let lowerMessage := s.toLower
    if "payment".toList <:+: lowerMessage.toList then
      .ok "I can help with payments! What do you need?"
    else if "rate".toList <:+: lowerMessage.toList then
      .ok "The current exchange rate is competitive. How much would you like to convert?"
    else .ok "Hello! How can I assist you with GlobalPay today?"
  | .undefined => .error (readError "toLowerCase" .undefined)
  | .null => .error (readError "toLowerCase" .null)
  | _ => .error "message.toLowerCase is not a function"

/-- The status call of line 52. -/
def statusCall (url : String) : Event := .fetch "GET" url none

/-- The start call of lines 21-28; the body is the value given to `JSON.stringify`. -/
def startCall (message : JsVal) : Event :=
  .fetch "POST" (AI_AGENT_URL ++ "/api/send-request") (some (.obj [("query", message)]))

/-- The success answer of lines 60-63. -/
def successResponse (pollData_analysis_result : JsVal) : NextResponse :=
  ⟨⟨pollData_analysis_result.orElse placeholder, "success", none⟩, 200⟩

/-- The answer built by the `catch` block, lines 77-84. -/
def errorResponse (message : String) : NextResponse :=
  ⟨⟨.str apology, "error", some message⟩, 500⟩

/-- The `for` loop of lines 47-70 followed by the `throw` of line 73, entered with the
loop variable at `attempt` and the effects performed so far in `trace`. -/
def pollLoop (agent : Agent) (url : String) (attempt : Nat) (trace : List Event) :
    Run NextResponse :=
  if attempt < maxAttempts then
    let trace := trace ++ [Event.sleep pollInterval, statusCall url]
    match agent.poll attempt with
    | .error msg => ⟨trace, .error msg⟩
    | .ok pollResponse =>
      if pollResponse.ok then
        match pollResponse.json with
        | .error msg => ⟨trace, .error msg⟩
        | .ok pollData =>
          match pollData.getProp "status" with
          | none => ⟨trace, .error (readError "status" pollData)⟩
          | some status =>
            if status.strictEqStr "complete" then
              match pollData.getProp "analysis_result" with
              | none => ⟨trace, .error (readError "analysis_result" pollData)⟩
              | some analysis_result => ⟨trace, .ok (successResponse analysis_result)⟩
            else pollLoop agent url (attempt + 1) trace
      else pollLoop agent url (attempt + 1) trace
  else ⟨trace, .error timeoutMessage⟩
termination_by maxAttempts - attempt
decreasing_by all_goals (simp_wf; omega)

/-- The `try` block of lines 4-73.  `request` is the outcome of `request.json()`.  The
template literals of lines 41 and 52 convert `request_id` to text, the same text on every
attempt, so the conversion is done once, where line 41 does it first. -/
def tryBlock (request : Except String JsVal) (agent : Agent) : Run NextResponse :=
  match request with
  | .error msg => ⟨[], .error msg⟩
  | .ok requestBody =>
    match requestBody.getProp "message" with
    | none => ⟨[], .error (destructureError "message" "(intermediate value)" requestBody)⟩
    | some message =>
      if !(JsVal.str AI_AGENT_URL).truthy then
        match getMockResponse message with
        | .error msg => ⟨[], .error msg⟩
        | .ok text => ⟨[], .ok ⟨⟨.str text, "success", none⟩, 200⟩⟩
      else
        let trace := [startCall message]
        match agent.start with
        | .error msg => ⟨trace, .error msg⟩
        | .ok startResponse =>
          if !startResponse.ok then
            ⟨trace, .error (startFailedMessage startResponse.status)⟩
          else
            match startResponse.json with
            | .error msg => ⟨trace, .error msg⟩
            | .ok startData =>
              match startData.getProp "request_id" with
              | none => ⟨trace, .error (destructureError "request_id" "startData" startData)⟩
              | some request_id =>
                if !request_id.truthy then ⟨trace, .error missingIdMessage⟩
                else
                  match request_id.toStr with
                  | .error msg => ⟨trace, .error msg⟩
                  | .ok idText =>
                    pollLoop agent (AI_AGENT_URL ++ "/api/get-response/" ++ idText) 0 trace

/-- A finished run of the route: the effects performed and the answer returned. -/
structure Outcome where
  trace : List Event
  response : NextResponse

/-- The `catch` block of lines 75-85 around a run of the `try` block: an answer that was
returned passes through, a thrown error becomes the degraded answer. -/
def catchBlock (run : Run NextResponse) : Outcome :=
  match run.result with
  | .ok response => ⟨run.trace, response⟩
  | .error message => ⟨run.trace, errorResponse message⟩

/-- The handler of lines 3-86. -/
def POST (request : Except String JsVal) (agent : Agent) : Outcome :=
  catchBlock (tryBlock request agent)

/-! ## Observations on a trace -/

/-- Is the event a status call (a `GET`)? -/
def Event.isStatusCall : Event → Bool
  | .fetch method _ _ => method == "GET"
  | .sleep _ => false

/-- Is the event a sleep? -/
def Event.isSleep : Event → Bool
  | .sleep _ => true
  | .fetch _ _ _ => false

/-- Milliseconds slept by an event. -/
def Event.delay : Event → Nat
  | .sleep ms => ms
  | .fetch _ _ _ => 0

/-- Number of status calls in a trace. -/
def statusCalls (trace : List Event) : Nat := trace.countP Event.isStatusCall

/-- Number of sleeps in a trace. -/
def sleeps (trace : List Event) : Nat := trace.countP Event.isSleep

/-- Total time slept in a trace, in milliseconds. -/
def totalDelay (trace : List Event) : Nat := (trace.map Event.delay).sum

/-- One iteration's effects, `n` times over: sleep, then status call. -/
def pollRounds (url : String) : Nat → List Event
  | 0 => []
  | n + 1 => pollRounds url n ++ [Event.sleep pollInterval, statusCall url]

/-! ## Reading the outcome of a status call -/

/-- The status call resolved with a non-success HTTP status. -/
def httpFailed : FetchResult → Bool
  | .ok response => !response.ok
  | .error _ => false

/-- The JSON payload of a status call that resolved with a success status. -/
def payload : FetchResult → Option JsVal
  | .ok response =>
    if response.ok then
      match response.json with
      | .ok data => some data
      | .error _ => none
    else none
  | .error _ => none

/-- The `status` field read from the payload of a successful status call. -/
def payloadStatus (r : FetchResult) : Option JsVal :=
  (payload r).bind (fun data => data.getProp "status")

/-- The status call returned a success payload whose status is `"complete"`. -/
def reportsComplete (r : FetchResult) : Bool :=
  match payloadStatus r with
  | some status => status.strictEqStr "complete"
  | none => false

/-- The status call returned a success payload whose status is something else than
`"complete"` (`"waiting"`, say, or no status at all). -/
def reportsWaiting (r : FetchResult) : Bool :=
  match payloadStatus r with
  | some status => !status.strictEqStr "complete"
  | none => false

/-- The status call neither finished the job nor threw: a non-success HTTP status, or a
success payload that is not complete. -/
def notDone (r : FetchResult) : Bool := httpFailed r || reportsWaiting r

/-- The URL polled for a request id whose text is `idText`. -/
def statusUrl (idText : String) : String := AI_AGENT_URL ++ "/api/get-response/" ++ idText

/-- The request parsed to a body carrying `message`, and the start call succeeded with a
usable `requestId` whose text is `idText`. -/
structure Started (request : Except String JsVal) (agent : Agent) (message requestId : JsVal)
    (idText : String) : Prop where
  parsed : ∃ requestBody, request = .ok requestBody ∧ requestBody.getProp "message" = some message
  accepted : ∃ startResponse startData, agent.start = .ok startResponse ∧
    startResponse.ok = true ∧ startResponse.json = .ok startData ∧
    startData.getProp "request_id" = some requestId
  usable : requestId.truthy = true
  text : requestId.toStr = .ok idText


/-- The failure kinds of the route, each with the message of the error it throws: an
unparsable request body, a rejected fetch, a start call that is refused, unparsable JSON
from the agent, a missing request id, and the exhausted attempt budget. -/
inductive Failure (request : Except String JsVal) (agent : Agent) : String → Prop where
  | badRequest (msg : String) : request = .error msg → Failure request agent msg
  | startUnreachable (requestBody message : JsVal) (msg : String) :
      request = .ok requestBody → requestBody.getProp "message" = some message →
      agent.start = .error msg → Failure request agent msg
  | startRejected (requestBody message : JsVal) (startResponse : Response) :
      request = .ok requestBody → requestBody.getProp "message" = some message →
      agent.start = .ok startResponse → startResponse.ok = false →
      Failure request agent (startFailedMessage startResponse.status)
  | startUnparsable (requestBody message : JsVal) (startResponse : Response) (msg : String) :
      request = .ok requestBody → requestBody.getProp "message" = some message →
      agent.start = .ok startResponse → startResponse.ok = true →
      startResponse.json = .error msg → Failure request agent msg
  | missingId (requestBody message : JsVal) (startResponse : Response)
      (startData requestId : JsVal) :
      request = .ok requestBody → requestBody.getProp "message" = some message →
      agent.start = .ok startResponse → startResponse.ok = true →
      startResponse.json = .ok startData → startData.getProp "request_id" = some requestId →
      requestId.truthy = false → Failure request agent missingIdMessage
  | timeout (message requestId : JsVal) (idText : String) :
      Started request agent message requestId idText →
      (∀ j, j < maxAttempts → notDone (agent.poll j) = true) →
      Failure request agent timeoutMessage
  | pollUnreachable (message requestId : JsVal) (idText : String) (k : Nat) (msg : String) :
      Started request agent message requestId idText → k < maxAttempts →
      (∀ j, j < k → notDone (agent.poll j) = true) → agent.poll k = .error msg →
      Failure request agent msg
  | pollUnparsable (message requestId : JsVal) (idText : String) (k : Nat)
      (response : Response) (msg : String) :
      Started request agent message requestId idText → k < maxAttempts →
      (∀ j, j < k → notDone (agent.poll j) = true) → agent.poll k = .ok response →
      response.ok = true → response.json = .error msg → Failure request agent msg

/-! ## Sample inputs -/

/-- A request whose body is `{"message": "hi"}`. -/
def sampleRequest : Except String JsVal := .ok (.obj [("message", .str "hi")])

/-- A start response `200 {"request_id": id}`. -/
def accepted (id : String) : FetchResult := .ok ⟨200, .ok (.obj [("request_id", .str id)])⟩

/-- A status response `200 {"status": "waiting"}`. -/
def waiting : FetchResult := .ok ⟨200, .ok (.obj [("status", .str "waiting")])⟩

/-- A status response `200 {"status": "complete", "analysis_result": text}`. -/
def complete (text : String) : FetchResult :=
  .ok ⟨200, .ok (.obj [("status", .str "complete"), ("analysis_result", .str text)])⟩

/-- A response with a non-success status and a body that is not JSON. -/
def refused (status : Nat) : FetchResult := .ok ⟨status, .error "Unexpected token < in JSON"⟩

/-- A fetch that rejects with a network error. -/
def unreachable : FetchResult := .error "fetch failed"

/-- Is the event a start call (a `POST`)? -/
def Event.isStartCall : Event → Bool
  | .fetch method _ _ => method == "POST"
  | .sleep _ => false

/-- Number of start calls in a trace. -/
def startCalls (trace : List Event) : Nat := trace.countP Event.isStartCall

/-- Logical or `a || b` of two values. -/
def JsVal.or (a b : JsVal) : JsVal := if a.truthy then a else b

/-- The test `message.includes(part)` on strings. -/
def includes (message part : String) : Bool := decide (part.toList <:+: message.toList)

/-- An HTTP request handed to `fetch`; the body is the value given to `JSON.stringify`. -/
structure HttpRequest where
  method : String
  url : String
  body : Option JsVal

end ChatRoute

/-! # The payment route

A shallow embedding of the `POST` handler of `src/frontend/app/api/payment/route.js`. -/

namespace PaymentRoute

open ChatRoute

/-- The service object imported on line 3.  Its two methods are asynchronous: a call
resolves with a value or rejects with an error, of which `error.message` is kept. -/
structure Service where
  validateTransaction : JsVal → Except String JsVal
  processPayment : JsVal → Except String JsVal

/-- A call of a method of the service. -/
inductive Call where
  | validateTransaction (transactionData : JsVal)
  | processPayment (transactionData : JsVal)

/-- Result of `NextResponse.json(body, { status })`; the status is 200 when not given. -/
structure Reply where
  body : JsVal
  status : Nat

/-- A run of the `try` block: the service calls made and what it returned or threw. -/
structure Run where
  calls : List Call
  result : Except String Reply

/-- A finished run of the route. -/
structure Outcome where
  calls : List Call
  reply : Reply

/-- The `try` block of lines 6-38.  `request` is the outcome of `request.json()`.  The
reads of line 10 are on one value, so either all succeed or the first one throws; the same
holds for `validation.valid` and `validation.errors`.  Line 32 reads `result.transactionId`
for the log, which throws on a `null` result. -/
def tryBlock (request : Except String JsVal) (service : Service) : Run :=
  match request with
  | .error msg => ⟨[], .error msg⟩
  | .ok transactionData =>
    match transactionData.getProp "sender", transactionData.getProp "receiver",
      transactionData.getProp "amount" with
    | some sender, some receiver, some amount =>
      if !sender.truthy || !receiver.truthy || !amount.truthy then
        ⟨[], .ok ⟨.obj [("error", .str "Missing required transaction data")], 400⟩⟩
      else
        let calls := [Call.validateTransaction transactionData]
        match service.validateTransaction transactionData with
        | .error msg => ⟨calls, .error msg⟩
        | .ok validation =>
          match validation.getProp "valid", validation.getProp "errors" with
          | some valid, some errors =>
            if !valid.truthy then
              ⟨calls, .ok ⟨.obj [("error", .str "Transaction validation failed"),
                ("details", errors.or (.arr []))], 400⟩⟩
            else
              let calls := calls ++ [Call.processPayment transactionData]
              match service.processPayment transactionData with
              | .error msg => ⟨calls, .error msg⟩
              | .ok result =>
                match result.getProp "transactionId" with
                | none => ⟨calls, .error (readError "transactionId" result)⟩
                | some _ => ⟨calls, .ok ⟨result, 200⟩⟩
          | _, _ => ⟨calls, .error (readError "valid" validation)⟩
    | _, _, _ => ⟨[], .error (readError "sender" transactionData)⟩

/-- The `catch` block of lines 39-49; `error.message || "Internal server error"`. -/
def catchBlock (run : Run) : Outcome :=
  match run.result with
  | .ok reply => ⟨run.calls, reply⟩
  | .error message =>
    ⟨run.calls, ⟨.obj [("error", .str "Payment processing failed"),
      ("message", (JsVal.str message).or (.str "Internal server error"))], 500⟩⟩

/-- The handler of lines 5-50. -/
def POST (request : Except String JsVal) (service : Service) : Outcome :=
  catchBlock (tryBlock request service)

/-- Is the field absent from the request body (no own property of that name)? -/
def fieldMissing (body : JsVal) (key : String) : Bool :=
  match body with
  | .obj fields => (fields.lookup key).isNone
  | _ => true

/-- The reply is the one of line 11: HTTP 400 with the missing-data error. -/
def isMissingDataReply (reply : Reply) : Prop :=
  reply.status = 400 ∧ reply.body.getProp "error" = some (.str "Missing required transaction data")

/-- A service that accepts every transaction and returns a fixed payment result. -/
def sampleService : Service :=
  ⟨fun _ => .ok (.obj [("valid", .bool true)]),
    fun _ => .ok (.obj [("transactionId", .str "TXN1"), ("status", .str "success")])⟩

/-- A service whose validation rejects with the reported `errors`. -/
def rejectingService (errors : JsVal) : Service :=
  ⟨fun _ => .ok (.obj [("valid", .bool false), ("errors", errors)]),
    fun _ => .ok (.obj [("transactionId", .str "TXN1"), ("status", .str "success")])⟩

/-- A request body with the three required fields. -/
def samplePayment (amount : String) : JsVal :=
  .obj [("sender", .str "alice"), ("receiver", .str "bob"), ("amount", .num amount)]

end PaymentRoute

/-! # The agent service

A shallow embedding of `src/upi-crypto-platform/services/aiAgentService.js`. -/

namespace AIAgentService

open ChatRoute

/-- What surrounds one call of a method of the service: the configured base URL (line 7),
the network, the identifier `generateTransactionId()` would return and the text
`new Date().toISOString()` would return. -/
structure Env where
  baseURL : String
  fetch : HttpRequest → FetchResult
  generatedId : String
  nowIso : String

/-- Property read `response.key` on a value that is known not to be `null`. -/
def field (response : JsVal) (key : String) : JsVal :=
  (response.getProp key).getD .undefined

/-- Lines 121-135.  Reading `response.success` throws on `null`. -/
def handleAIResponse (generatedId : String) (response : JsVal) : Except String JsVal :=
  match response.getProp "success" with
  | none => .error (readError "success" response)
  | some success =>
    .ok (.obj [
      ("success", success.or (.bool ((field response "status").strictEqStr "success"))),
      ("transactionId",
        ((field response "transaction_id").or (field response "transactionId")).or
          (.str generatedId)),
      ("status",
        (field response "status").or (.str (if success.truthy then "success" else "failed"))),
      ("message",
        (field response "message").or
          (.str (if success.truthy then "Payment processed successfully"
            else "Payment failed"))),
      ("fees", (field response "fees").or (.num "0")),
      ("exchangeRate", (field response "exchange_rate").or (field response "exchangeRate")),
      ("estimatedTime",
        ((field response "estimated_time").or (field response "estimatedTime")).or
          (.str "2-5 minutes")),
      ("riskScore",
        ((field response "risk_score").or (field response "riskScore")).or (.str "low")),
      ("warnings", (field response "warnings").or (.arr [])),
      ("metadata", (field response "metadata").or (.obj []))])

/-- The request of lines 13-25. -/
def processPaymentRequest (env : Env) (transactionData : JsVal) : HttpRequest :=
  ⟨"POST", env.baseURL ++ "/api/process-payment",
    some (.obj [("transaction", transactionData), ("timestamp", .str env.nowIso),
      ("platform", .str "cryptopay-web")])⟩

/-- The `try` block of `processPayment`, lines 12-32. -/
def processPaymentTry (env : Env) (transactionData : JsVal) : Except String JsVal :=
  match env.fetch (processPaymentRequest env transactionData) with
  | .error msg => .error msg
  | .ok response =>
    if !response.ok then .error ("HTTP error! status: " ++ toString response.status)
    else
      match response.json with
      | .error msg => .error msg
      | .ok result => handleAIResponse env.generatedId result

/-- The method `processPayment`, lines 11-44.  The method `getMockResponse` (lines 137-159)
draws from `Math.random` and multiplies floating-point numbers; `processPayment` only hands
its result on, so it is a parameter here (it throws when it cannot read the amount). -/
def processPayment (env : Env) (getMockResponse : JsVal → Except String JsVal)
    (transactionData : JsVal) : Except String JsVal :=
  match processPaymentTry env transactionData with
  | .ok result => .ok result
  | .error message =>
    if includes message "fetch" then getMockResponse transactionData
    else .error message

/-- The `try` block of `validateTransaction`, lines 47-61. -/
def validateTransactionTry (env : Env) (transactionData : JsVal) : Except String JsVal :=
  match env.fetch ⟨"POST", env.baseURL ++ "/api/validate-transaction",
      some transactionData⟩ with
  | .error msg => .error msg
  | .ok response =>
    if !response.ok then .error ("Validation failed: " ++ toString response.status)
    else response.json

/-- The fallback of lines 65-69. -/
def validationFallback : JsVal :=
  .obj [("valid", .bool true), ("warnings", .arr []), ("riskScore", .str "low")]

/-- The method `validateTransaction`, lines 46-71. -/
def validateTransaction (env : Env) (transactionData : JsVal) : JsVal :=
  match validateTransactionTry env transactionData with
  | .ok body => body
  | .error _ => validationFallback

/-- What `getExchangeRate` can return: the agent's JSON body, a rate record built by
`getMockExchangeRate`, or a member of `Object.prototype` that `rates[key]` finds when the
key is the name of one. -/
inductive RateAnswer where
  | body (data : JsVal)
  | entry (rate : ℚ) (lastUpdated : String)
  | inherited (name : String)

/-- The property names of `Object.prototype`, which a literal object inherits. -/
def objectPrototypeNames : List String :=
  ["constructor", "hasOwnProperty", "isPrototypeOf", "propertyIsEnumerable",
    "toLocaleString", "toString", "valueOf", "__proto__", "__defineGetter__",
    "__defineSetter__", "__lookupGetter__", "__lookupSetter__"]

/-- Lines 161-171, with `now` the text of `new Date().toISOString()`: the rate table, the
members the table inherits (all truthy), and the default record. -/
def getMockExchangeRate (now : String) (fromCurrency toCurrency : String) : RateAnswer :=
  let key := fromCurrency ++ "_" ++ toCurrency
  if key = "INR_USD" then .entry 0.012 now
  else if key = "USD_INR" then .entry 83.25 now
  else if key = "INR_EUR" then .entry 0.011 now
  else if key = "EUR_INR" then .entry 90.15 now
  else if key ∈ objectPrototypeNames then .inherited key
  else .entry 1 now

/-- The `try` block of `getExchangeRate`, lines 74-90. -/
def getExchangeRateTry (env : Env) : Except String JsVal :=
  match env.fetch ⟨"GET", env.baseURL ++ "/api/exchange-rate", none⟩ with
  | .error msg => .error msg
  | .ok response =>
    if !response.ok then .error ("Exchange rate fetch failed: " ++ toString response.status)
    else response.json

/-- The method `getExchangeRate`, lines 73-96. -/
def getExchangeRate (env : Env) (fromCurrency toCurrency : String) : RateAnswer :=
  match getExchangeRateTry env with
  | .ok data => .body data
  | .error _ => getMockExchangeRate env.nowIso fromCurrency toCurrency

/-- A currency code: letters and digits only. -/
def isCurrencyCode (code : String) : Bool := code.toList.all Char.isAlphanum

/-- The rate carried by an answer of `getMockExchangeRate`, when it is a rate record. -/
def RateAnswer.rate? : RateAnswer → Option ℚ
  | .entry rate _ => some rate
  | _ => none

/-- An environment whose network answers every request with `result`. -/
def sampleEnv (result : FetchResult) : Env :=
  ⟨"http://localhost:8000", fun _ => result, "TXN17000000000001234", "2025-01-01T00:00:00.000Z"⟩

/-- A stand-in for `getMockResponse`. -/
def sampleMock (transactionData : JsVal) : Except String JsVal :=
  .ok (.obj [("success", .bool true), ("transaction", transactionData)])

end AIAgentService

/-! # Transaction utilities

A shallow embedding of `saveTransaction` and `validateIFSC` of
`src/frontend/utils/transactionUtils.js`. -/

namespace TransactionUtils

open ChatRoute

/-- The platform under `saveTransaction`: `JSON.parse`, `JSON.stringify`, the clock
(`Date.now()` and `new Date().toISOString()`) and whether `localStorage.setItem` accepts
the write (it throws when the quota is exceeded). -/
structure Platform where
  parse : String → Except String JsVal
  stringify : JsVal → String
  nowMs : Nat
  nowIso : String
  accepts : Bool

/-- The expression `localStorage.getItem(key) || "[]"`; `getItem` gives `null` (here
`none`) when there is no item. -/
def itemOrEmptyList (item : Option String) : String :=
  match item with
  | some text => if text != "" then text else "[]"
  | none => "[]"

/-- Define property `key` on an object with the given own properties: an existing
property keeps its place and takes the new value, a new one comes last. -/
def setField (fields : List (String × JsVal)) (key : String) (value : JsVal) :
    List (String × JsVal) :=
  if fields.any (fun kv => kv.1 == key) then
    fields.map (fun kv => if kv.1 == key then (key, value) else kv)
  else fields ++ [(key, value)]

/-- The record of lines 6-10: `{ ...transactionData, id, timestamp }`. -/
def newRecord (platform : Platform) (transactionData : List (String × JsVal)) : JsVal :=
  .obj (setField (setField transactionData "id" (.str (toString platform.nowMs)))
    "timestamp" (.str platform.nowIso))

/-- The item in local storage afterwards, and the value returned. -/
structure Saved where
  item : Option String
  returned : JsVal

/-- Lines 3-25.  `transactionData` is the list of own properties of the object passed;
`item` is what local storage holds under `cryptopay_transactions`.  Any exception (the
text does not parse, the parsed value has no `unshift`, the write is refused) leaves the
storage as it was and returns `null`. -/
def saveTransaction (platform : Platform) (item : Option String)
    (transactionData : List (String × JsVal)) : Saved :=
  match platform.parse (itemOrEmptyList item) with
  | .error _ => ⟨item, .null⟩
  | .ok (.arr existing) =>
    let newTransaction := newRecord platform transactionData
    let existing := newTransaction :: existing
    let existing := if existing.length > 50 then existing.take 50 else existing
    if platform.accepts then ⟨some (platform.stringify (.arr existing)), newTransaction⟩
    else ⟨item, .null⟩
  | .ok _ => ⟨item, .null⟩

/-- The capitals that `toUpperCase` puts for one character.  The characters whose capitals
are all ASCII are written out: `a` to `z`, dotless i (`I`), long s (`S`), sharp s (`SS`)
and the ligatures ff, fi, fl, ffi, ffl, long s-t and st.  Any other character has a capital
with a character outside ASCII (itself, when it has none), which the pattern of line 44
rejects as it rejects the character itself, so it stands for its capital here. -/
def capitals (c : Char) : List Char :=
  if c.toNat = 305 then ['I']
  else if c.toNat = 383 then ['S']
  else if c.toNat = 223 then ['S', 'S']
  else if c.toNat = 64256 then ['F', 'F']
  else if c.toNat = 64257 then ['F', 'I']
  else if c.toNat = 64258 then ['F', 'L']
  else if c.toNat = 64259 then ['F', 'F', 'I']
  else if c.toNat = 64260 then ['F', 'F', 'L']
  else if c.toNat = 64261 then ['S', 'T']
  else if c.toNat = 64262 then ['S', 'T']
  else [c.toUpper]

/-- The method `toUpperCase`, character by character. -/
def toUpperCase (s : String) : String := ⟨(s.toList.map capitals).flatten⟩

/-- The class `[A-Z]`. -/
def isCapital (c : Char) : Bool := decide ('A' ≤ c) && decide (c ≤ 'Z')

/-- The class `[A-Z0-9]`. -/
def isCapitalOrDigit (c : Char) : Bool :=
  isCapital c || (decide ('0' ≤ c) && decide (c ≤ '9'))

/-- The test of the pattern `/^[A-Z]{4}0[A-Z0-9]{6}$/` of line 44. -/
def ifscRegex (s : String) : Bool :=
  match s.toList with
  | [a, b, c, d, z, e, f, g, h, i, j] =>
    isCapital a && isCapital b && isCapital c && isCapital d && z == '0' &&
      isCapitalOrDigit e && isCapitalOrDigit f && isCapitalOrDigit g &&
      isCapitalOrDigit h && isCapitalOrDigit i && isCapitalOrDigit j
  | _ => false

/-- Lines 42-46. -/
def validateIFSC (ifsc : String) : Bool := ifscRegex (toUpperCase ifsc)

/-- The format in the words of the comment on line 43, letters in either case: 4 letters
followed by 7 digits. -/
def isFourLettersSevenDigits (s : String) : Bool :=
  match s.toList with
  | [a, b, c, d, e, f, g, h, i, j, k] =>
    a.isAlpha && b.isAlpha && c.isAlpha && d.isAlpha && e.isDigit && f.isDigit &&
      g.isDigit && h.isDigit && i.isDigit && j.isDigit && k.isDigit
  | _ => false

/-- A JavaScript number by its value: not-a-number, an infinity, or a finite value (the
value of a double is a rational, so comparisons with a constant are exact). -/
inductive JsNumber where
  | nan
  | negInf
  | fin (value : ℚ)
  | posInf

/-- The comparison `x < c` with a finite constant; false on `NaN`. -/
def JsNumber.lt (x : JsNumber) (c : ℚ) : Bool :=
  match x with
  | .nan => false
  | .negInf => true
  | .fin value => decide (value < c)
  | .posInf => false

/-- The comparison `x <= c` with a finite constant; false on `NaN`. -/
def JsNumber.le (x : JsNumber) (c : ℚ) : Bool :=
  match x with
  | .nan => false
  | .negInf => true
  | .fin value => decide (value ≤ c)
  | .posInf => false

/-- The comparison `x > c` with a finite constant; false on `NaN`. -/
def JsNumber.gt (x : JsNumber) (c : ℚ) : Bool :=
  match x with
  | .nan => false
  | .negInf => false
  | .fin value => decide (value > c)
  | .posInf => true

/-- The characters matched by `\s` and removed by `trim`: white space and line ends. -/
def isWhiteSpace (c : Char) : Bool :=
  decide (c.toNat ∈ [9, 10, 11, 12, 13, 32, 160, 5760, 8232, 8233, 8239, 8287, 12288, 65279])
    || (decide (8192 ≤ c.toNat) && decide (c.toNat ≤ 8202))

/-- The `length` of a string of these characters, in UTF-16 code units. -/
def utf16Length (chars : List Char) : Nat :=
  (chars.map (fun c => if c.toNat < 65536 then 1 else 2)).sum

/-- Lines 36-40: white space is removed, then 9 to 18 characters, all digits `0`-`9`. -/
def validateAccountNumber (accountNumber : String) : Bool :=
  let cleaned := accountNumber.toList.filter (fun c => !isWhiteSpace c)
  decide (utf16Length cleaned ≥ 9) && decide (utf16Length cleaned ≤ 18) &&
    (!cleaned.isEmpty && cleaned.all Char.isDigit)

/-- What `getTransactionStatus` reads of a transaction: the time value of
`new Date(transaction.timestamp)` in milliseconds (`none` for an invalid date) and the
number that `transaction.amount` is compared as. -/
structure Transaction where
  time : Option Int
  amount : JsNumber

/-- The difference `now - transactionTime` of line 74; `NaN` for an invalid date. -/
def timeDiff (now : Int) (transaction : Transaction) : JsNumber :=
  match transaction.time with
  | some t => .fin ((now - t : Int) : ℚ)
  | none => .nan

/-- Lines 70-85, with `now` the time value of `new Date()` and `draw` the value that
`Math.random()` returns if it is called. -/
def getTransactionStatus (now : Int) (draw : ℚ) (transaction : Transaction) : String :=
  if (timeDiff now transaction).lt 30000 then "pending"
  else if transaction.amount.gt 1000 && decide (draw < 0.1) then "failed"
  else "success"

/-- Local storage holds the list `existing`: there is an item, a non-empty text that
`JSON.parse` reads as that list; or there is none (or an empty one) and the list is empty,
`JSON.parse("[]")` being the empty list. -/
def HoldsList (platform : Platform) (item : Option String) (existing : List JsVal) : Prop :=
  (∃ text, item = some text ∧ text ≠ "" ∧ platform.parse text = .ok (.arr existing)) ∨
  ((item = none ∨ item = some "") ∧ existing = [] ∧ platform.parse "[]" = .ok (.arr []))

/-- A platform for examples: the text `stored` parses to the list `existing`, `[]` to the
empty list and nothing else parses; a list is written as a text that tells its length. -/
def samplePlatform (existing : List JsVal) (accepts : Bool) : Platform :=
  ⟨fun text =>
      if text = "stored" then .ok (.arr existing)
      else if text = "[]" then .ok (.arr [])
      else .error "Unexpected token",
    fun value =>
      match value with
      | .arr items => "list of " ++ toString items.length
      | _ => "other",
    1700000000000, "2023-11-14T22:13:20.000Z", accepts⟩

end TransactionUtils

/-! # The pay page

A shallow embedding of `validateForm` of `src/frontend/app/pay/page.js` and of
`src/upi-crypto-platform/app/pay/page.js` (lines 112-135 of each). -/

namespace PayPage

open TransactionUtils

/-- The form state `paymentData` (lines 14-20): five texts. -/
structure PaymentData where
  senderName : String
  senderAccount : String
  senderIFSC : String
  amount : String
  purpose : String

/-- The object `errors`: a message for each field that has one. -/
structure FormErrors where
  senderName : Option String
  senderAccount : Option String
  senderIFSC : Option String
  amount : Option String

/-- What the page imports and the platform gives: the two validators of
`utils/transactionUtils` and `Number.parseFloat`. -/
structure Imports where
  validateAccountNumber : String → Bool
  validateIFSC : String → Bool
  parseFloat : String → JsNumber

/-- The result of a call: the errors handed to `setValidationErrors` and the value
returned. -/
structure Checked where
  errors : FormErrors
  result : Bool

/-- The method `trim`: white space is dropped from both ends. -/
def trim (s : String) : String :=
  ⟨((s.toList.dropWhile isWhiteSpace).reverse.dropWhile isWhiteSpace).reverse⟩

/-- The test `Object.keys(errors).length === 0`. -/
def FormErrors.isEmpty (errors : FormErrors) : Bool :=
  errors.senderName.isNone && errors.senderAccount.isNone && errors.senderIFSC.isNone &&
    errors.amount.isNone

/-- The text has a character that is not white space. -/
def nonBlank (s : String) : Bool := s.toList.any (fun c => !isWhiteSpace c)

/-- The imports of the page under `src/frontend`, whose `utils/transactionUtils` is
embedded above. -/
def frontendImports (parseFloat : String → JsNumber) : Imports :=
  ⟨validateAccountNumber, validateIFSC, parseFloat⟩

/-- A stand-in for `Number.parseFloat` on a few texts. -/
def sampleParseFloat (text : String) : JsNumber :=
  if text = "250" then .fin 250
  else if text = "0.5" then .fin 0.5
  else if text = "20000" then .fin 20000
  else if text = "-5" then .fin (-5)
  else if text = "0" then .fin 0
  else .nan

/-- A filled form with the given amount. -/
def sampleForm (amount : String) : PaymentData :=
  ⟨"Asha Rao", "1234 5678 9012", "sbin0001234", amount, "rent"⟩

end PayPage

namespace FrontendPay

open TransactionUtils PayPage

/-- Lines 112-135 of `src/frontend/app/pay/page.js`. -/
def validateForm (imports : Imports) (paymentData : PaymentData) : Checked :=
  let errors : FormErrors := ⟨none, none, none, none⟩
  let errors :=
    if (trim paymentData.senderName) == "" then
      { errors with senderName := some "Name is required" }
    else errors
  let errors :=
    if !imports.validateAccountNumber paymentData.senderAccount then
      { errors with senderAccount := some "Invalid account number" }
    else errors
  let errors :=
    if !imports.validateIFSC paymentData.senderIFSC then
      { errors with senderIFSC := some "Invalid IFSC code format" }
    else errors
  let errors :=
    if paymentData.amount == "" || (imports.parseFloat paymentData.amount).le 0 then
      { errors with amount := some "Valid amount is required" }
    else if (imports.parseFloat paymentData.amount).gt 10000 then
      { errors with amount := some "Amount exceeds maximum limit of $10,000" }
    else errors
  ⟨errors, errors.isEmpty⟩

end FrontendPay

namespace CryptoPlatformPay

open TransactionUtils PayPage

/-- Lines 112-135 of `src/upi-crypto-platform/app/pay/page.js`. -/
def validateForm (imports : Imports) (paymentData : PaymentData) : Checked :=
  let errors : FormErrors := ⟨none, none, none, none⟩
  let errors :=
    if (trim paymentData.senderName) == "" then
      { errors with senderName := some "Name is required" }
    else errors
  let errors :=
    if !imports.validateAccountNumber paymentData.senderAccount then
      { errors with senderAccount := some "Invalid account number" }
    else errors
  let errors :=
    if !imports.validateIFSC paymentData.senderIFSC then
      { errors with senderIFSC := some "Invalid IFSC code format" }
    else errors
  let errors :=
    if paymentData.amount == "" || (imports.parseFloat paymentData.amount).le 0 then
      { errors with amount := some "Valid amount is required" }
    else if (imports.parseFloat paymentData.amount).gt 10000 then
      { errors with amount := some "Amount exceeds maximum limit of $10,000" }
    else errors
  ⟨errors, errors.isEmpty⟩

end CryptoPlatformPay

namespace ChatRoute

/-! ## The poll loop, one attempt at a time -/

theorem agentUrl_truthy : (JsVal.str AI_AGENT_URL).truthy = true := by decide

theorem getProp_total (data : JsVal) (key key2 : String) (v : JsVal)
    (h : data.getProp key = some v) : ∃ w, data.getProp key2 = some w := by
  cases data <;> simp [JsVal.getProp] at h ⊢

theorem pollLoop_timeout (agent : Agent) (url : String) (attempt : Nat) (trace : List Event)
    (h : maxAttempts ≤ attempt) :
    pollLoop agent url attempt trace = ⟨trace, .error timeoutMessage⟩ := by
  rw [pollLoop]
  simp [Nat.not_lt.mpr h]

theorem pollLoop_next (agent : Agent) (url : String) (attempt : Nat) (trace : List Event)
    (hlt : attempt < maxAttempts) (h : notDone (agent.poll attempt) = true) :
    pollLoop agent url attempt trace =
      pollLoop agent url (attempt + 1) (trace ++ [Event.sleep pollInterval, statusCall url]) := by
  rw [pollLoop]
  simp only [hlt, if_true]
  cases hp : agent.poll attempt with
  | error msg => simp [hp, notDone, httpFailed, reportsWaiting, payloadStatus, payload] at h
  | ok response =>
    simp only [hp, notDone, httpFailed, reportsWaiting, payloadStatus, payload] at h
    cases hok : response.ok with
    | false => simp [hok]
    | true =>
      simp only [hok] at h
      cases hj : response.json with
      | error msg => simp [hj] at h
      | ok data =>
        simp only [hj] at h
        cases hs : data.getProp "status" with
        | none => simp [hs] at h
        | some status =>
          simp [hs] at h
          simp [hok, hj, hs, h]

theorem pollLoop_complete (agent : Agent) (url : String) (attempt : Nat) (trace : List Event)
    (hlt : attempt < maxAttempts) (data analysis_result : JsVal)
    (hp : payload (agent.poll attempt) = some data)
    (hc : reportsComplete (agent.poll attempt) = true)
    (ha : data.getProp "analysis_result" = some analysis_result) :
    pollLoop agent url attempt trace =
      ⟨trace ++ [Event.sleep pollInterval, statusCall url],
        .ok (successResponse analysis_result)⟩ := by
  rw [pollLoop]
  simp only [hlt, if_true]
  cases hq : agent.poll attempt with
  | error msg => simp [hq, payload] at hp
  | ok response =>
    simp only [hq, reportsComplete, payloadStatus, payload] at hp hc
    cases hok : response.ok with
    | false => simp [hok] at hp
    | true =>
      simp only [hok] at hp hc
      cases hj : response.json with
      | error msg => simp [hj] at hp
      | ok d =>
        simp [hj] at hp hc
        subst hp
        cases hs : d.getProp "status" with
        | none => simp [hs] at hc
        | some status =>
          simp [hs] at hc
          simp [hok, hj, hs, hc, ha]

theorem pollLoop_threw (agent : Agent) (url : String) (attempt : Nat) (trace : List Event)
    (hlt : attempt < maxAttempts) :
    (∀ msg, agent.poll attempt = .error msg →
      pollLoop agent url attempt trace =
        ⟨trace ++ [Event.sleep pollInterval, statusCall url], .error msg⟩) ∧
    (∀ response msg, agent.poll attempt = .ok response → response.ok = true →
      response.json = .error msg →
      pollLoop agent url attempt trace =
        ⟨trace ++ [Event.sleep pollInterval, statusCall url], .error msg⟩) ∧
    (∀ response data, agent.poll attempt = .ok response → response.ok = true →
      response.json = .ok data → data.getProp "status" = none →
      pollLoop agent url attempt trace =
        ⟨trace ++ [Event.sleep pollInterval, statusCall url],
          .error (readError "status" data)⟩) := by
  refine ⟨?_, ?_, ?_⟩
  · intro msg hp
    rw [pollLoop]; simp [hlt, hp]
  · intro response msg hp hok hj
    rw [pollLoop]; simp [hlt, hp, hok, hj]
  · intro response data hp hok hj hs
    rw [pollLoop]; simp [hlt, hp, hok, hj, hs]

theorem pollRounds_succ (url : String) (n : Nat) (trace : List Event) :
    trace ++ pollRounds url n ++ [Event.sleep pollInterval, statusCall url] =
      trace ++ pollRounds url (n + 1) := by
  simp [pollRounds]

/-- Attempts `attempt`, ..., `attempt + n - 1` that are all not done are passed over. -/
theorem pollLoop_skip (agent : Agent) (url : String) (n : Nat) :
    ∀ (attempt : Nat) (trace : List Event), attempt + n ≤ maxAttempts →
      (∀ j, j < n → notDone (agent.poll (attempt + j)) = true) →
      pollLoop agent url attempt trace =
        pollLoop agent url (attempt + n) (trace ++ pollRounds url n) := by
  induction n with
  | zero => intro attempt trace _ _; simp [pollRounds]
  | succ n ih =>
    intro attempt trace hle hall
    rw [ih attempt trace (by omega) (fun j hj => hall j (by omega))]
    rw [pollLoop_next agent url (attempt + n) _ (by omega) (hall n (by omega))]
    rw [pollRounds_succ]
    rfl

theorem started_tryBlock {request : Except String JsVal} {agent : Agent}
    {message requestId : JsVal} {idText : String}
    (h : Started request agent message requestId idText) :
    tryBlock request agent = pollLoop agent (statusUrl idText) 0 [startCall message] := by
  obtain ⟨⟨requestBody, hreq, hmsg⟩, ⟨startResponse, startData, hs, hok, hj, hid⟩, hu, ht⟩ := h
  subst hreq
  simp [tryBlock, hmsg, agentUrl_truthy, hs, hok, hj, hid, hu, ht, statusUrl]


theorem notDone_not_complete (r : FetchResult) (h : notDone r = true) :
    reportsComplete r = false := by
  cases r with
  | error msg => simp [reportsComplete, payloadStatus, payload]
  | ok response =>
    cases hok : response.ok with
    | false => simp [reportsComplete, payloadStatus, payload, hok]
    | true =>
      cases hj : response.json with
      | error msg => simp [reportsComplete, payloadStatus, payload, hok, hj]
      | ok data =>
        cases hs : data.getProp "status" with
        | none => simp [reportsComplete, payloadStatus, payload, hok, hj, hs]
        | some status =>
          simp [notDone, httpFailed, reportsWaiting, payloadStatus, payload, hok, hj, hs] at h
          simp [reportsComplete, payloadStatus, payload, hok, hj, hs, h]

/-- What one iteration of the loop does, by the outcome of its status call. -/
theorem pollLoop_cases (agent : Agent) (url : String) (attempt : Nat) (trace : List Event)
    (hlt : attempt < maxAttempts) :
    (notDone (agent.poll attempt) = true ∧
      pollLoop agent url attempt trace =
        pollLoop agent url (attempt + 1)
          (trace ++ [Event.sleep pollInterval, statusCall url])) ∨
    (reportsComplete (agent.poll attempt) = true ∧
      ∃ analysis_result, pollLoop agent url attempt trace =
        ⟨trace ++ [Event.sleep pollInterval, statusCall url],
          .ok (successResponse analysis_result)⟩) ∨
    (reportsComplete (agent.poll attempt) = false ∧
      ∃ msg, pollLoop agent url attempt trace =
        ⟨trace ++ [Event.sleep pollInterval, statusCall url], .error msg⟩) := by
  by_cases hn : notDone (agent.poll attempt) = true
  · exact Or.inl ⟨hn, pollLoop_next agent url attempt trace hlt hn⟩
  · right
    obtain ⟨h1, h2, h3⟩ := pollLoop_threw agent url attempt trace hlt
    cases hp : agent.poll attempt with
    | error msg =>
      exact Or.inr ⟨by simp [reportsComplete, payloadStatus, payload], msg, h1 msg hp⟩
    | ok response =>
      cases hok : response.ok with
      | false => simp [hp, notDone, httpFailed, hok] at hn
      | true =>
        cases hj : response.json with
        | error msg =>
          exact Or.inr ⟨by simp [reportsComplete, payloadStatus, payload, hok, hj], msg,
            h2 response msg hp hok hj⟩
        | ok data =>
          cases hs : data.getProp "status" with
          | none =>
            exact Or.inr ⟨by simp [reportsComplete, payloadStatus, payload, hok, hj, hs], _,
              h3 response data hp hok hj hs⟩
          | some status =>
            have hc : reportsComplete (agent.poll attempt) = true := by
              simp [hp, notDone, httpFailed, reportsWaiting, payloadStatus, payload, hok, hj,
                hs] at hn
              simp [hp, reportsComplete, payloadStatus, payload, hok, hj, hs, hn]
            obtain ⟨w, hw⟩ := getProp_total data "status" "analysis_result" status hs
            refine Or.inl ⟨by rw [← hp]; exact hc, w, ?_⟩
            exact pollLoop_complete agent url attempt trace hlt data w
              (by simp [hp, payload, hok, hj]) hc hw

theorem pollRounds_cons (url : String) (n : Nat) :
    [Event.sleep pollInterval, statusCall url] ++ pollRounds url n = pollRounds url (n + 1) := by
  induction n with
  | zero => simp [pollRounds]
  | succ n ih =>
    rw [pollRounds, ← List.append_assoc, ih]
    rfl

/-- Shape of every run of the loop: it performs `n` rounds of sleep and status call, all
but the last one not done, and returns an answer exactly when a call made was complete. -/
theorem pollLoop_shape (agent : Agent) (url : String) (m : Nat) :
    ∀ (attempt : Nat) (trace : List Event), maxAttempts - attempt = m →
      ∃ n, n ≤ maxAttempts - attempt ∧
        (pollLoop agent url attempt trace).trace = trace ++ pollRounds url n ∧
        (∀ j, j + 1 < n → notDone (agent.poll (attempt + j)) = true) ∧
        ((∃ r, (pollLoop agent url attempt trace).result = .ok r) ↔
          ∃ j, j < n ∧ reportsComplete (agent.poll (attempt + j)) = true) ∧
        (∀ r, (pollLoop agent url attempt trace).result = .ok r →
          ∃ analysis_result, r = successResponse analysis_result) := by
  induction m with
  | zero =>
    intro attempt trace hm
    refine ⟨0, Nat.zero_le _, ?_, ?_, ?_, ?_⟩
    · rw [pollLoop_timeout agent url attempt trace (by omega)]; simp [pollRounds]
    · intro j hj; omega
    · rw [pollLoop_timeout agent url attempt trace (by omega)]; simp
    · rw [pollLoop_timeout agent url attempt trace (by omega)]; simp
  | succ m ih =>
    intro attempt trace hm
    have hlt : attempt < maxAttempts := by omega
    rcases pollLoop_cases agent url attempt trace hlt with ⟨hn, he⟩ | ⟨hc, ar, he⟩ | ⟨hc, msg, he⟩
    · obtain ⟨n, hle, htr, hnd, hiff, hok⟩ :=
        ih (attempt + 1) (trace ++ [Event.sleep pollInterval, statusCall url]) (by omega)
      refine ⟨n + 1, by omega, ?_, ?_, ?_, ?_⟩
      · rw [he, htr, List.append_assoc, pollRounds_cons]
      · intro j hj
        cases j with
        | zero => simpa using hn
        | succ j =>
          have := hnd j (by omega)
          rwa [show attempt + (j + 1) = attempt + 1 + j by omega]
      · rw [he, hiff]
        constructor
        · rintro ⟨j, hj, hcj⟩
          exact ⟨j + 1, by omega, by rwa [show attempt + (j + 1) = attempt + 1 + j by omega]⟩
        · rintro ⟨j, hj, hcj⟩
          cases j with
          | zero =>
            have := notDone_not_complete _ hn
            simp [this] at hcj
          | succ j =>
            exact ⟨j, by omega, by rwa [show attempt + 1 + j = attempt + (j + 1) by omega]⟩
      · rw [he]; exact hok
    · refine ⟨1, by omega, ?_, ?_, ?_, ?_⟩
      · rw [he]; simp [pollRounds]
      · intro j hj; omega
      · rw [he]
        constructor
        · intro _; exact ⟨0, by omega, by simpa using hc⟩
        · intro _; exact ⟨_, rfl⟩
      · rw [he]; intro r hr
        exact ⟨ar, by simpa using hr.symm⟩
    · refine ⟨1, by omega, ?_, ?_, ?_, ?_⟩
      · rw [he]; simp [pollRounds]
      · intro j hj; omega
      · rw [he]
        constructor
        · rintro ⟨r, hr⟩; simp at hr
        · rintro ⟨j, hj, hcj⟩
          have : j = 0 := by omega
          subst this
          simp [hc] at hcj
      · rw [he]; intro r hr; simp at hr


/-! ## Counting on traces -/

theorem statusCall_isStatusCall (url : String) : (statusCall url).isStatusCall = true := by
  simp [statusCall, Event.isStatusCall]

theorem startCall_isStatusCall (message : JsVal) : (startCall message).isStatusCall = false := by
  simp [startCall, Event.isStatusCall]

theorem statusCalls_pollRounds (url : String) (n : Nat) :
    statusCalls (pollRounds url n) = n := by
  induction n with
  | zero => simp [pollRounds, statusCalls]
  | succ n ih =>
    simp only [statusCalls] at ih
    simp [pollRounds, statusCalls, List.countP_append, ih, List.countP_cons,
      statusCall, Event.isStatusCall]

theorem sleeps_pollRounds (url : String) (n : Nat) : sleeps (pollRounds url n) = n := by
  induction n with
  | zero => simp [pollRounds, sleeps]
  | succ n ih =>
    simp only [sleeps] at ih
    simp [pollRounds, sleeps, List.countP_append, ih, List.countP_cons, statusCall,
      Event.isSleep]

theorem totalDelay_pollRounds (url : String) (n : Nat) :
    totalDelay (pollRounds url n) = n * pollInterval := by
  induction n with
  | zero => simp [pollRounds, totalDelay]
  | succ n ih =>
    simp only [totalDelay] at ih
    simp [pollRounds, totalDelay, ih, statusCall, Event.delay]
    ring

theorem sleep_mem_pollRounds (url : String) (n ms : Nat)
    (h : Event.sleep ms ∈ pollRounds url n) : ms = pollInterval := by
  induction n with
  | zero => simp [pollRounds] at h
  | succ n ih =>
    simp [pollRounds, statusCall] at h
    rcases h with h | h
    · exact ih h
    · exact h

theorem statusCalls_started (message : JsVal) (url : String) (n : Nat) :
    statusCalls (startCall message :: pollRounds url n) = n := by
  have := statusCalls_pollRounds url n
  simp only [statusCalls] at this ⊢
  simp [List.countP_cons, startCall_isStatusCall, this]

theorem sleeps_started (message : JsVal) (url : String) (n : Nat) :
    sleeps (startCall message :: pollRounds url n) = n := by
  have := sleeps_pollRounds url n
  simp only [sleeps] at this ⊢
  simp [List.countP_cons, startCall, Event.isSleep, this]

theorem totalDelay_started (message : JsVal) (url : String) (n : Nat) :
    totalDelay (startCall message :: pollRounds url n) = n * pollInterval := by
  have := totalDelay_pollRounds url n
  simp only [totalDelay] at this ⊢
  simp [startCall, Event.delay, this]

/-! ## Whole runs -/

/-- All of the first `k` attempts not done, then the budget is honoured up to `k`. -/
theorem pollLoop_skip_zero (agent : Agent) (url : String) (k : Nat) (trace : List Event)
    (hk : k ≤ maxAttempts) (hall : ∀ j, j < k → notDone (agent.poll j) = true) :
    pollLoop agent url 0 trace = pollLoop agent url k (trace ++ pollRounds url k) := by
  have := pollLoop_skip agent url k 0 trace (by omega) (fun j hj => by simpa using hall j hj)
  simpa using this

/-- A run in which every attempt of the budget is not done times out after all of them. -/
theorem started_timeout {request : Except String JsVal} {agent : Agent}
    {message requestId : JsVal} {idText : String}
    (h : Started request agent message requestId idText)
    (hall : ∀ j, j < maxAttempts → notDone (agent.poll j) = true) :
    POST request agent =
      ⟨startCall message :: pollRounds (statusUrl idText) maxAttempts,
        errorResponse timeoutMessage⟩ := by
  rw [POST, started_tryBlock h, pollLoop_skip_zero agent _ maxAttempts _ (Nat.le_refl _) hall,
    pollLoop_timeout _ _ _ _ (Nat.le_refl _)]
  simp [catchBlock]

/-- A run whose attempt `k` is the first that is done, and is complete, answers with it. -/
theorem started_complete {request : Except String JsVal} {agent : Agent}
    {message requestId : JsVal} {idText : String}
    (h : Started request agent message requestId idText) (k : Nat) (hk : k < maxAttempts)
    (hall : ∀ j, j < k → notDone (agent.poll j) = true) (data analysis_result : JsVal)
    (hp : payload (agent.poll k) = some data)
    (hc : reportsComplete (agent.poll k) = true)
    (ha : data.getProp "analysis_result" = some analysis_result) :
    POST request agent =
      ⟨startCall message :: pollRounds (statusUrl idText) (k + 1),
        successResponse analysis_result⟩ := by
  rw [POST, started_tryBlock h, pollLoop_skip_zero agent _ k _ (Nat.le_of_lt hk) hall,
    pollLoop_complete agent _ k _ hk data analysis_result hp hc ha]
  simp [catchBlock, pollRounds]

/-- A complete status call carries a payload with a readable `analysis_result`. -/
theorem complete_payload (r : FetchResult) (hc : reportsComplete r = true) :
    ∃ data analysis_result, payload r = some data ∧
      data.getProp "analysis_result" = some analysis_result := by
  simp only [reportsComplete, payloadStatus] at hc
  cases hp : payload r with
  | none => simp [hp] at hc
  | some data =>
    cases hs : data.getProp "status" with
    | none => simp [hp, hs] at hc
    | some status =>
      obtain ⟨w, hw⟩ := getProp_total data "status" "analysis_result" status hs
      exact ⟨data, w, rfl, hw⟩

/-- The `try` block either throws before any status call, or runs the poll loop. -/
theorem tryBlock_cases (request : Except String JsVal) (agent : Agent) :
    (∃ msg, tryBlock request agent = ⟨[], .error msg⟩) ∨
    (∃ message msg, tryBlock request agent = ⟨[startCall message], .error msg⟩) ∨
    (∃ message url, tryBlock request agent = pollLoop agent url 0 [startCall message]) := by
  cases request with
  | error msg => exact Or.inl ⟨msg, by simp [tryBlock]⟩
  | ok requestBody =>
    cases hm : requestBody.getProp "message" with
    | none =>
      exact Or.inl ⟨destructureError "message" "(intermediate value)" requestBody, by
        simp [tryBlock, hm]⟩
    | some message =>
      right
      cases hs : agent.start with
      | error msg => exact Or.inl ⟨message, msg, by simp [tryBlock, hm, agentUrl_truthy, hs]⟩
      | ok startResponse =>
        cases hok : startResponse.ok with
        | false =>
          exact Or.inl ⟨message, startFailedMessage startResponse.status, by
            simp [tryBlock, hm, agentUrl_truthy, hs, hok]⟩
        | true =>
          cases hj : startResponse.json with
          | error msg =>
            exact Or.inl ⟨message, msg, by simp [tryBlock, hm, agentUrl_truthy, hs, hok, hj]⟩
          | ok startData =>
            cases hid : startData.getProp "request_id" with
            | none =>
              exact Or.inl ⟨message, destructureError "request_id" "startData" startData, by
                simp [tryBlock, hm, agentUrl_truthy, hs, hok, hj, hid]⟩
            | some requestId =>
              cases hu : requestId.truthy with
              | false =>
                exact Or.inl ⟨message, missingIdMessage, by
                  simp [tryBlock, hm, agentUrl_truthy, hs, hok, hj, hid, hu]⟩
              | true =>
                cases ht : requestId.toStr with
                | error msg =>
                  exact Or.inl ⟨message, msg, by
                    simp [tryBlock, hm, agentUrl_truthy, hs, hok, hj, hid, hu, ht]⟩
                | ok idText =>
                  exact Or.inr ⟨message, AI_AGENT_URL ++ "/api/get-response/" ++ idText, by
                    simp [tryBlock, hm, agentUrl_truthy, hs, hok, hj, hid, hu, ht]⟩


/-- Once the loop is entered within the budget, a sleep and a status call happen. -/
theorem pollLoop_first_round (agent : Agent) (url : String) (attempt : Nat)
    (trace : List Event) (hlt : attempt < maxAttempts) :
    ∃ rest, (pollLoop agent url attempt trace).trace =
      trace ++ [Event.sleep pollInterval, statusCall url] ++ rest := by
  rcases pollLoop_cases agent url attempt trace hlt with ⟨_, he⟩ | ⟨_, ar, he⟩ | ⟨_, msg, he⟩
  · obtain ⟨n, _, htr, _⟩ := pollLoop_shape agent url _ (attempt + 1)
      (trace ++ [Event.sleep pollInterval, statusCall url]) rfl
    exact ⟨pollRounds url n, by rw [he, htr]⟩
  · exact ⟨[], by rw [he]; simp⟩
  · exact ⟨[], by rw [he]; simp⟩

theorem notDone_of_or (r : FetchResult)
    (h : httpFailed r = true ∨ reportsWaiting r = true) : notDone r = true := by
  simpa [notDone] using h

/-! ## The claims -/

/-- C1: when the start endpoint answers with a non-success HTTP status `s`, the handler
performs the start call and nothing else (no status call, no sleep) and returns the
degraded answer (HTTP 500, status `error`) whose error detail is
`AI Agent start request failed with status: s`. -/
theorem start_rejected_yields_start_failed (requestBody message : JsVal) (agent : Agent)
    (startResponse : Response)
    (hmsg : requestBody.getProp "message" = some message)
    (hstart : agent.start = .ok startResponse)
    (hfail : startResponse.ok = false) :
    (POST (.ok requestBody) agent).trace = [startCall message] ∧
    statusCalls (POST (.ok requestBody) agent).trace = 0 ∧
    sleeps (POST (.ok requestBody) agent).trace = 0 ∧
    (POST (.ok requestBody) agent).response =
      ⟨⟨.str apology, "error",
        some ("AI Agent start request failed with status: " ++ toString startResponse.status)⟩,
        500⟩ := by
  have h : POST (.ok requestBody) agent =
      ⟨[startCall message], errorResponse (startFailedMessage startResponse.status)⟩ := by
    simp [POST, tryBlock, hmsg, agentUrl_truthy, hstart, hfail, catchBlock]
  rw [h]
  refine ⟨rfl, ?_, ?_, rfl⟩
  · simpa [pollRounds] using statusCalls_started message "" 0
  · simpa [pollRounds] using sleeps_started message "" 0

/-- Witness of C1: a start call answered with HTTP 500. -/
theorem start_rejected_yields_start_failed_witness :
    (POST sampleRequest ⟨refused 500, fun _ => waiting⟩).trace = [startCall (.str "hi")] ∧
    (POST sampleRequest ⟨refused 500, fun _ => waiting⟩).response.body.error =
      some "AI Agent start request failed with status: 500" := by
  have h := start_rejected_yields_start_failed (.obj [("message", .str "hi")]) (.str "hi")
    ⟨refused 500, fun _ => waiting⟩ ⟨500, .error "Unexpected token < in JSON"⟩ rfl rfl rfl
  exact ⟨h.1, by rw [sampleRequest, h.2.2.2]; rfl⟩


/-- C2 as stated fails, twice over: a start response `200 null` carries no usable
`request_id`, yet the error detail is that of the failed destructuring of line 35, not
`AI Agent did not return a valid request_id.`; and the usable `request_id`
`{"toString": 1}`, which has no text form, makes line 41 throw, so no polling starts. -/
theorem start_body_null_has_other_detail :
    (POST sampleRequest ⟨.ok ⟨200, .ok .null⟩, fun _ => waiting⟩).response.body.error =
      some "Cannot destructure property 'request_id' of 'startData' as it is null." ∧
    (POST sampleRequest ⟨.ok ⟨200, .ok .null⟩, fun _ => waiting⟩).response.body.error ≠
      some "AI Agent did not return a valid request_id." ∧
    JsVal.truthy (.obj [("toString", .num "1")]) = true ∧
    (POST sampleRequest
      ⟨.ok ⟨200, .ok (.obj [("request_id", .obj [("toString", .num "1")])])⟩,
        fun _ => complete "ok"⟩).trace = [startCall (.str "hi")] ∧
    (POST sampleRequest
      ⟨.ok ⟨200, .ok (.obj [("request_id", .obj [("toString", .num "1")])])⟩,
        fun _ => complete "ok"⟩).response.body.error =
      some "Cannot convert object to primitive value" := by
  have h : (POST sampleRequest ⟨.ok ⟨200, .ok .null⟩, fun _ => waiting⟩).response.body.error =
      some "Cannot destructure property 'request_id' of 'startData' as it is null." := rfl
  refine ⟨h, ?_, rfl, rfl, rfl⟩
  rw [h]
  decide

/-- C2, amended: when the start call succeeds with a body other than `null` that carries no
usable `request_id` (the field is absent and so reads `undefined`, or is `null`, or the
empty string: any falsy value), the handler makes no status call and returns the error
answer whose detail is `AI Agent did not return a valid request_id.`; when the
`request_id` is usable and has a text form (a string is its own text, a number the text
JavaScript prints for it), polling starts with it: a sleep and a status call for that
identifier follow the start call.  A usable `request_id` without a text form and a `null`
body end the run before any status call, with the error of the failed conversion or
destructuring as detail. -/
theorem missing_request_id_yields_error (requestBody message : JsVal) (agent : Agent)
    (startResponse : Response) (startData : JsVal)
    (hmsg : requestBody.getProp "message" = some message)
    (hstart : agent.start = .ok startResponse)
    (hok : startResponse.ok = true)
    (hjson : startResponse.json = .ok startData) :
    (∀ requestId, startData.getProp "request_id" = some requestId →
      (requestId.truthy = false →
        (POST (.ok requestBody) agent).trace = [startCall message] ∧
        statusCalls (POST (.ok requestBody) agent).trace = 0 ∧
        (POST (.ok requestBody) agent).response =
          ⟨⟨.str apology, "error", some "AI Agent did not return a valid request_id."⟩,
            500⟩) ∧
      ((requestId = .undefined ∨ requestId = .null ∨ requestId = .str "") →
        requestId.truthy = false) ∧
      (requestId.truthy = true → ∀ idText, requestId.toStr = .ok idText →
        POST (.ok requestBody) agent =
          catchBlock (pollLoop agent (AI_AGENT_URL ++ "/api/get-response/" ++ idText) 0
            [startCall message]) ∧
        [startCall message, Event.sleep 2000,
          statusCall (AI_AGENT_URL ++ "/api/get-response/" ++ idText)] <+:
          (POST (.ok requestBody) agent).trace) ∧
      (requestId.truthy = true → ∀ msg, requestId.toStr = .error msg →
        (POST (.ok requestBody) agent).trace = [startCall message] ∧
        (POST (.ok requestBody) agent).response = ⟨⟨.str apology, "error", some msg⟩, 500⟩) ∧
      (∀ s, requestId = .str s → requestId.toStr = .ok s) ∧
      (∀ t, requestId = .num t → requestId.toStr = .ok t) ∧
      (∀ b, requestId = .bool b → requestId.toStr = .ok (if b then "true" else "false"))) ∧
    (startData ≠ .null → startData ≠ .undefined →
      ∃ requestId, startData.getProp "request_id" = some requestId) ∧
    (startData = .null →
      (POST (.ok requestBody) agent).trace = [startCall message] ∧
      (POST (.ok requestBody) agent).response =
        ⟨⟨.str apology, "error",
          some "Cannot destructure property 'request_id' of 'startData' as it is null."⟩,
          500⟩) := by
  refine ⟨?_, ?_, ?_⟩
  · intro requestId hid
    refine ⟨?_, ?_, ?_, ?_, ?_, ?_, ?_⟩
    · intro hu
      have h : POST (.ok requestBody) agent =
          ⟨[startCall message], errorResponse missingIdMessage⟩ := by
        simp [POST, tryBlock, hmsg, agentUrl_truthy, hstart, hok, hjson, hid, hu, catchBlock]
      rw [h]
      exact ⟨rfl, by simpa [pollRounds] using statusCalls_started message "" 0, rfl⟩
    · rintro (h | h | h) <;> subst h <;> rfl
    · intro hu idText ht
      have h : tryBlock (.ok requestBody) agent =
          pollLoop agent (AI_AGENT_URL ++ "/api/get-response/" ++ idText) 0
            [startCall message] := by
        simp [tryBlock, hmsg, agentUrl_truthy, hstart, hok, hjson, hid, hu, ht]
      refine ⟨by rw [POST, h], ?_⟩
      obtain ⟨rest, hrest⟩ := pollLoop_first_round agent
        (AI_AGENT_URL ++ "/api/get-response/" ++ idText) 0 [startCall message]
        (by simp [maxAttempts])
      have htrace : (POST (.ok requestBody) agent).trace =
          (pollLoop agent (AI_AGENT_URL ++ "/api/get-response/" ++ idText) 0
            [startCall message]).trace := by
        rw [POST, h, catchBlock]
        split <;> rfl
      rw [htrace, hrest]
      exact ⟨rest, by simp [pollInterval]⟩
    · intro hu msg ht
      have h : POST (.ok requestBody) agent = ⟨[startCall message], errorResponse msg⟩ := by
        simp [POST, tryBlock, hmsg, agentUrl_truthy, hstart, hok, hjson, hid, hu, ht,
          catchBlock]
      rw [h]
      exact ⟨rfl, rfl⟩
    · intro s hs
      subst hs
      rfl
    · intro t ht
      subst ht
      rfl
    · intro b hb
      subst hb
      rfl
  · intro h1 h2
    cases startData <;> simp [JsVal.getProp] at h1 h2 ⊢
  · intro hnull
    subst hnull
    have h : POST (.ok requestBody) agent =
        ⟨[startCall message],
          errorResponse (destructureError "request_id" "startData" .null)⟩ := by
      have hnone : JsVal.null.getProp "request_id" = none := rfl
      simp [POST, tryBlock, hmsg, agentUrl_truthy, hstart, hok, hjson, hnone, catchBlock]
    rw [h]
    exact ⟨rfl, rfl⟩

/-- Witness of C2 amended: a start response `200 {}` is refused for its missing
identifier; the identifiers `job-1` (a string), `1e+21` (a number), `["a", null, 7]` and
`{"k": 1}` are polled as they print. -/
theorem missing_request_id_yields_error_witness :
    (POST sampleRequest ⟨.ok ⟨200, .ok (.obj [])⟩, fun _ => waiting⟩).response.body.error =
      some "AI Agent did not return a valid request_id." ∧
    [startCall (.str "hi"), Event.sleep 2000,
      statusCall "http://0.0.0.0:8001/api/get-response/job-1"] <+:
      (POST sampleRequest ⟨accepted "job-1", fun _ => waiting⟩).trace ∧
    [startCall (.str "hi"), Event.sleep 2000,
      statusCall "http://0.0.0.0:8001/api/get-response/1e+21"] <+:
      (POST sampleRequest
        ⟨.ok ⟨200, .ok (.obj [("request_id", .num "1e+21")])⟩, fun _ => waiting⟩).trace ∧
    [startCall (.str "hi"), Event.sleep 2000,
      statusCall "http://0.0.0.0:8001/api/get-response/a,,7"] <+:
      (POST sampleRequest
        ⟨.ok ⟨200, .ok (.obj [("request_id", .arr [.str "a", .null, .num "7"])])⟩,
          fun _ => waiting⟩).trace ∧
    [startCall (.str "hi"), Event.sleep 2000,
      statusCall "http://0.0.0.0:8001/api/get-response/[object Object]"] <+:
      (POST sampleRequest
        ⟨.ok ⟨200, .ok (.obj [("request_id", .obj [("k", .num "1")])])⟩,
          fun _ => waiting⟩).trace := by
  have h1 := ((missing_request_id_yields_error (.obj [("message", .str "hi")]) (.str "hi")
    ⟨.ok ⟨200, .ok (.obj [])⟩, fun _ => waiting⟩ ⟨200, .ok (.obj [])⟩ (.obj [])
    rfl rfl rfl rfl).1 .undefined rfl).1 rfl
  have h2 := (((missing_request_id_yields_error (.obj [("message", .str "hi")]) (.str "hi")
    ⟨accepted "job-1", fun _ => waiting⟩ ⟨200, .ok (.obj [("request_id", .str "job-1")])⟩
    (.obj [("request_id", .str "job-1")])
    rfl rfl rfl rfl).1 (.str "job-1") rfl).2.2.1 rfl "job-1" rfl).2
  have h3 := (((missing_request_id_yields_error (.obj [("message", .str "hi")]) (.str "hi")
    ⟨.ok ⟨200, .ok (.obj [("request_id", .num "1e+21")])⟩, fun _ => waiting⟩
    ⟨200, .ok (.obj [("request_id", .num "1e+21")])⟩
    (.obj [("request_id", .num "1e+21")])
    rfl rfl rfl rfl).1 (.num "1e+21") rfl).2.2.1 rfl "1e+21" rfl).2
  have h4 := (((missing_request_id_yields_error (.obj [("message", .str "hi")]) (.str "hi")
    ⟨.ok ⟨200, .ok (.obj [("request_id", .arr [.str "a", .null, .num "7"])])⟩,
      fun _ => waiting⟩
    ⟨200, .ok (.obj [("request_id", .arr [.str "a", .null, .num "7"])])⟩
    (.obj [("request_id", .arr [.str "a", .null, .num "7"])])
    rfl rfl rfl rfl).1 (.arr [.str "a", .null, .num "7"]) rfl).2.2.1 rfl "a,,7" rfl).2
  have h5 := (((missing_request_id_yields_error (.obj [("message", .str "hi")]) (.str "hi")
    ⟨.ok ⟨200, .ok (.obj [("request_id", .obj [("k", .num "1")])])⟩, fun _ => waiting⟩
    ⟨200, .ok (.obj [("request_id", .obj [("k", .num "1")])])⟩
    (.obj [("request_id", .obj [("k", .num "1")])])
    rfl rfl rfl rfl).1 (.obj [("k", .num "1")]) rfl).2.2.1 rfl "[object Object]" rfl).2
  exact ⟨by rw [sampleRequest, h1.2.2], h2, h3, h4, h5⟩

/-- C3: when the start call succeeds with a request id and each of the 15 status calls
returns a non-success HTTP status or a success payload whose status is not `complete`,
the handler makes exactly 15 status calls and returns the error answer whose detail is
`Request timed out. The agent took too long to respond.`, whichever of the polls failed. -/
theorem exhausted_budget_yields_timeout (request : Except String JsVal) (agent : Agent)
    (message requestId : JsVal) (idText : String)
    (hstarted : Started request agent message requestId idText)
    (hall : ∀ j, j < 15 →
      httpFailed (agent.poll j) = true ∨ reportsWaiting (agent.poll j) = true) :
    statusCalls (POST request agent).trace = 15 ∧
    (POST request agent).trace = startCall message :: pollRounds (statusUrl idText) 15 ∧
    (POST request agent).response =
      ⟨⟨.str apology, "error",
        some "Request timed out. The agent took too long to respond."⟩, 500⟩ := by
  have h := started_timeout hstarted (fun j hj => notDone_of_or _ (hall j hj))
  rw [h]
  exact ⟨statusCalls_started message _ 15, rfl, rfl⟩

/-- Witness of C3: a job that stays `waiting`, with HTTP 503 on every third poll. -/
theorem exhausted_budget_yields_timeout_witness :
    statusCalls (POST sampleRequest
      ⟨accepted "job-1", fun k => if k % 3 = 2 then refused 503 else waiting⟩).trace = 15 ∧
    (POST sampleRequest
      ⟨accepted "job-1", fun k => if k % 3 = 2 then refused 503 else waiting⟩).response.body.error
      = some "Request timed out. The agent took too long to respond." := by
  have h := exhausted_budget_yields_timeout sampleRequest
    ⟨accepted "job-1", fun k => if k % 3 = 2 then refused 503 else waiting⟩
    (.str "hi") (.str "job-1") "job-1"
    ⟨⟨_, rfl, rfl⟩, ⟨_, _, rfl, rfl, rfl, rfl⟩, rfl, rfl⟩
    (fun j _ => by
      by_cases hj : j % 3 = 2
      · left; simp [hj, refused, httpFailed, Response.ok]
      · right; simp [hj, waiting, reportsWaiting, payloadStatus, payload, Response.ok,
          JsVal.getProp, List.lookup, JsVal.strictEqStr])
  exact ⟨h.1, by rw [h.2.2]⟩


/-- C4: when a status call of the run (attempt `k`, the earlier ones not done) returns a
success payload whose status is `complete`, the handler stops there, the trace ending with
that status call, and answers HTTP 200 with status `success` and a response that is the
payload's `analysis_result` when it has content (is truthy) and the placeholder
`Process complete, but no response content.` when it is absent or empty. -/
theorem complete_stops_polling (request : Except String JsVal) (agent : Agent)
    (message requestId : JsVal) (idText : String)
    (hstarted : Started request agent message requestId idText)
    (k : Nat) (hk : k < 15)
    (hearly : ∀ j, j < k → notDone (agent.poll j) = true)
    (data analysis_result : JsVal)
    (hpayload : payload (agent.poll k) = some data)
    (hstatus : data.getProp "status" = some (.str "complete"))
    (hresult : data.getProp "analysis_result" = some analysis_result) :
    (POST request agent).trace = startCall message :: pollRounds (statusUrl idText) (k + 1) ∧
    (POST request agent).trace.getLast? = some (statusCall (statusUrl idText)) ∧
    statusCalls (POST request agent).trace = k + 1 ∧
    sleeps (POST request agent).trace = k + 1 ∧
    (POST request agent).response.status = 200 ∧
    (POST request agent).response.body.status = "success" ∧
    (POST request agent).response.body.error = none ∧
    (analysis_result.truthy = true →
      (POST request agent).response.body.response = analysis_result) ∧
    (analysis_result.truthy = false →
      (POST request agent).response.body.response =
        .str "Process complete, but no response content.") ∧
    ((analysis_result = .undefined ∨ analysis_result = .null ∨ analysis_result = .str "") →
      analysis_result.truthy = false) := by
  have hc : reportsComplete (agent.poll k) = true := by
    simp [reportsComplete, payloadStatus, hpayload, hstatus, JsVal.strictEqStr]
  have h := started_complete hstarted k hk hearly data analysis_result hpayload hc hresult
  rw [h]
  refine ⟨rfl, ?_, statusCalls_started message _ _, sleeps_started message _ _, rfl, rfl, rfl,
    ?_, ?_, ?_⟩
  · have hsplit : startCall message :: pollRounds (statusUrl idText) (k + 1) =
        (startCall message :: pollRounds (statusUrl idText) k ++
          [Event.sleep pollInterval]) ++ [statusCall (statusUrl idText)] := by
      simp [pollRounds]
    rw [hsplit, List.getLast?_concat]
  · intro ht; simp [successResponse, JsVal.orElse, ht]
  · intro ht; simp [successResponse, JsVal.orElse, ht, placeholder]
  · rintro (h | h | h) <;> subst h <;> rfl

/-- Witness of C4: `complete` on the third status call, once with content and once
without. -/
theorem complete_stops_polling_witness :
    (POST sampleRequest ⟨accepted "job-1",
      fun k => if k = 2 then complete "All set." else waiting⟩).response.body.response =
      .str "All set." ∧
    statusCalls (POST sampleRequest ⟨accepted "job-1",
      fun k => if k = 2 then complete "All set." else waiting⟩).trace = 3 ∧
    (POST sampleRequest ⟨accepted "job-1",
      fun k => if k = 2 then complete "" else waiting⟩).response.body.response =
      .str "Process complete, but no response content." := by
  have hw : ∀ (text : String) (j : Nat), j < 2 →
      notDone ((fun k => if k = 2 then complete text else waiting) j) = true := by
    intro text j hj
    have : j ≠ 2 := by omega
    simp [this, notDone, waiting, reportsWaiting, payloadStatus, payload, Response.ok,
      JsVal.getProp, List.lookup, JsVal.strictEqStr]
  have h1 := complete_stops_polling sampleRequest
    ⟨accepted "job-1", fun k => if k = 2 then complete "All set." else waiting⟩
    (.str "hi") (.str "job-1") "job-1"
    ⟨⟨_, rfl, rfl⟩, ⟨_, _, rfl, rfl, rfl, rfl⟩, rfl, rfl⟩ 2 (by decide) (hw "All set.")
    (.obj [("status", .str "complete"), ("analysis_result", .str "All set.")])
    (.str "All set.") rfl rfl rfl
  have h2 := complete_stops_polling sampleRequest
    ⟨accepted "job-1", fun k => if k = 2 then complete "" else waiting⟩
    (.str "hi") (.str "job-1") "job-1"
    ⟨⟨_, rfl, rfl⟩, ⟨_, _, rfl, rfl, rfl, rfl⟩, rfl, rfl⟩ 2 (by decide) (hw "")
    (.obj [("status", .str "complete"), ("analysis_result", .str "")])
    (.str "") rfl rfl rfl
  exact ⟨h1.2.2.2.2.2.2.2.1 rfl, h1.2.2.1, h2.2.2.2.2.2.2.2.2.1 rfl⟩

/-- C5: a status call answered with a non-success HTTP status does not stop the loop and
uses up one attempt: for `1 ≤ k < 15`, when attempts `1` to `k - 1` report waiting, attempt
`k` returns a non-success status and attempt `k + 1` reports `complete`, the handler
answers `success` after exactly `k + 1` status calls.  (Attempt `n` is `agent.poll (n - 1)`.) -/
theorem http_error_consumes_one_attempt (request : Except String JsVal) (agent : Agent)
    (message requestId : JsVal) (idText : String)
    (hstarted : Started request agent message requestId idText)
    (k : Nat) (hk1 : 1 ≤ k) (hk : k < 15)
    (hearly : ∀ j, j < k - 1 → reportsWaiting (agent.poll j) = true)
    (hfail : httpFailed (agent.poll (k - 1)) = true)
    (hdone : reportsComplete (agent.poll k) = true) :
    (POST request agent).response.body.status = "success" ∧
    (POST request agent).response.status = 200 ∧
    statusCalls (POST request agent).trace = k + 1 := by
  obtain ⟨data, analysis_result, hp, ha⟩ := complete_payload _ hdone
  have hall : ∀ j, j < k → notDone (agent.poll j) = true := by
    intro j hj
    by_cases hj1 : j < k - 1
    · exact notDone_of_or _ (Or.inr (hearly j hj1))
    · have : j = k - 1 := by omega
      subst this
      exact notDone_of_or _ (Or.inl hfail)
  have h := started_complete hstarted k hk hall data analysis_result hp hdone ha
  rw [h]
  exact ⟨rfl, rfl, statusCalls_started message _ _⟩

/-- Witness of C5: HTTP 503 on attempt 3 and `complete` on attempt 4 succeed after 4
status calls. -/
theorem http_error_consumes_one_attempt_witness :
    (POST sampleRequest ⟨accepted "job-1", fun n =>
      if n = 2 then refused 503 else if n = 3 then complete "ok" else waiting⟩
    ).response.body.status = "success" ∧
    statusCalls (POST sampleRequest ⟨accepted "job-1", fun n =>
      if n = 2 then refused 503 else if n = 3 then complete "ok" else waiting⟩).trace = 4 := by
  have h := http_error_consumes_one_attempt sampleRequest
    ⟨accepted "job-1", fun n =>
      if n = 2 then refused 503 else if n = 3 then complete "ok" else waiting⟩
    (.str "hi") (.str "job-1") "job-1"
    ⟨⟨_, rfl, rfl⟩, ⟨_, _, rfl, rfl, rfl, rfl⟩, rfl, rfl⟩ 3 (by decide) (by decide)
    (fun j hj => by
      have h2 : j ≠ 2 := by omega
      have h3 : j ≠ 3 := by omega
      simp [h2, h3, waiting, reportsWaiting, payloadStatus, payload, Response.ok,
        JsVal.getProp, List.lookup, JsVal.strictEqStr])
    rfl rfl
  exact ⟨h.1, h.2.2⟩

/-- C6, the code at the failing input: the first status fetch rejects with a network error
and the second would report `complete`; the handler makes one status call and returns the
error answer carrying the network error, where the claim promises a success. -/
theorem network_error_aborts_polling :
    reportsComplete ((fun n => if n = 0 then unreachable else complete "ok") 1) = true ∧
    POST sampleRequest ⟨accepted "job-1", fun n => if n = 0 then unreachable else complete "ok"⟩
      = ⟨[startCall (.str "hi"), Event.sleep 2000, statusCall (statusUrl "job-1")],
          ⟨⟨.str apology, "error", some "fetch failed"⟩, 500⟩⟩ ∧
    statusCalls (POST sampleRequest
      ⟨accepted "job-1", fun n => if n = 0 then unreachable else complete "ok"⟩).trace = 1 := by
  have hs : Started sampleRequest
      ⟨accepted "job-1", fun n => if n = 0 then unreachable else complete "ok"⟩
      (.str "hi") (.str "job-1") "job-1" :=
    ⟨⟨_, rfl, rfl⟩, ⟨_, _, rfl, rfl, rfl, rfl⟩, rfl, rfl⟩
  have h : POST sampleRequest
      ⟨accepted "job-1", fun n => if n = 0 then unreachable else complete "ok"⟩
      = ⟨[startCall (.str "hi"), Event.sleep 2000, statusCall (statusUrl "job-1")],
          ⟨⟨.str apology, "error", some "fetch failed"⟩, 500⟩⟩ := by
    rw [POST, started_tryBlock hs,
      (pollLoop_threw _ _ 0 _ (by decide)).1 "fetch failed" rfl]
    rfl
  refine ⟨rfl, h, ?_⟩
  rw [h]
  exact statusCalls_started (.str "hi") (statusUrl "job-1") 1


/-- The `catch` block turns whatever the `try` block throws into the degraded answer. -/
theorem POST_of_threw (request : Except String JsVal) (agent : Agent) (trace : List Event)
    (msg : String) (h : tryBlock request agent = ⟨trace, .error msg⟩) :
    POST request agent = ⟨trace, errorResponse msg⟩ := by
  simp [POST, catchBlock, h]

/-- C7: no failure leaves the handler: for each failure kind (unparsable request body,
rejected fetch of the start or of a status call, refused start call, unparsable JSON from
the agent, missing request id, exhausted budget) the `try` block throws the error with
that message and the handler returns HTTP 500 with status `error`, the fixed apology as
response and the message as error detail. -/
theorem failure_yields_degraded_answer (request : Except String JsVal) (agent : Agent)
    (msg : String) (hfail : Failure request agent msg) :
    (tryBlock request agent).result = .error msg ∧
    (POST request agent).response =
      ⟨⟨.str "I'm experiencing some technical difficulties right now. Please try again in a moment.",
        "error", some msg⟩, 500⟩ := by
  have key : ∃ trace, tryBlock request agent = ⟨trace, .error msg⟩ := by
    cases hfail with
    | badRequest _ h => exact ⟨[], by simp [tryBlock, h]⟩
    | startUnreachable requestBody message _ hr hm hs =>
      exact ⟨[startCall message], by simp [tryBlock, hr, hm, agentUrl_truthy, hs]⟩
    | startRejected requestBody message startResponse hr hm hs hok =>
      exact ⟨[startCall message], by simp [tryBlock, hr, hm, agentUrl_truthy, hs, hok]⟩
    | startUnparsable requestBody message startResponse _ hr hm hs hok hj =>
      exact ⟨[startCall message], by simp [tryBlock, hr, hm, agentUrl_truthy, hs, hok, hj]⟩
    | missingId requestBody message startResponse startData requestId hr hm hs hok hj hid hu =>
      exact ⟨[startCall message], by
        simp [tryBlock, hr, hm, agentUrl_truthy, hs, hok, hj, hid, hu]⟩
    | timeout message requestId idText hst hall =>
      exact ⟨_, by
        rw [started_tryBlock hst,
          pollLoop_skip_zero agent _ maxAttempts _ (Nat.le_refl _) hall,
          pollLoop_timeout _ _ _ _ (Nat.le_refl _)]⟩
    | pollUnreachable message requestId idText k _ hst hk hall hp =>
      exact ⟨_, by
        rw [started_tryBlock hst, pollLoop_skip_zero agent _ k _ (Nat.le_of_lt hk) hall,
          (pollLoop_threw agent _ k _ hk).1 msg hp]⟩
    | pollUnparsable message requestId idText k response _ hst hk hall hp hok hj =>
      exact ⟨_, by
        rw [started_tryBlock hst, pollLoop_skip_zero agent _ k _ (Nat.le_of_lt hk) hall,
          (pollLoop_threw agent _ k _ hk).2.1 response msg hp hok hj]⟩
  obtain ⟨trace, h⟩ := key
  refine ⟨by rw [h], ?_⟩
  rw [POST_of_threw request agent trace msg h]
  rfl

/-- Witness of C7: a status response whose body is not JSON, on the second attempt. -/
theorem failure_yields_degraded_answer_witness :
    (POST sampleRequest ⟨accepted "job-1", fun n =>
      if n = 1 then .ok ⟨200, .error "Unexpected end of JSON input"⟩ else waiting⟩).response =
      ⟨⟨.str "I'm experiencing some technical difficulties right now. Please try again in a moment.",
        "error", some "Unexpected end of JSON input"⟩, 500⟩ :=
  (failure_yields_degraded_answer sampleRequest
    ⟨accepted "job-1", fun n =>
      if n = 1 then .ok ⟨200, .error "Unexpected end of JSON input"⟩ else waiting⟩
    "Unexpected end of JSON input"
    (Failure.pollUnparsable (.str "hi") (.str "job-1") "job-1" 1
      ⟨200, .error "Unexpected end of JSON input"⟩ "Unexpected end of JSON input"
      ⟨⟨_, rfl, rfl⟩, ⟨_, _, rfl, rfl, rfl, rfl⟩, rfl, rfl⟩ (by decide)
      (fun j hj => by
        have : j = 0 := by omega
        subst this
        rfl)
      rfl rfl rfl)).2

theorem truthy_orElse (v : JsVal) : (v.orElse placeholder).truthy = true := by
  unfold JsVal.orElse
  split
  · assumption
  · decide

theorem truthy_ne (v : JsVal) (h : v.truthy = true) :
    v ≠ .undefined ∧ v ≠ .null ∧ v ≠ .str "" := by
  refine ⟨?_, ?_, ?_⟩ <;> intro hv <;> subst hv <;> simp [JsVal.truthy] at h

/-- Every run: the trace is the start-up part followed by `n ≤ 15` rounds, and the answer
is a success answer exactly when one of the status calls made reported `complete`. -/
theorem POST_shape (request : Except String JsVal) (agent : Agent) :
    ∃ head url n, n ≤ maxAttempts ∧
      (POST request agent).trace = head ++ pollRounds url n ∧
      statusCalls head = 0 ∧ sleeps head = 0 ∧ totalDelay head = 0 ∧ head.length ≤ 1 ∧
      (∀ ms, Event.sleep ms ∉ head) ∧
      (((∃ analysis_result,
          (POST request agent).response = successResponse analysis_result) ∧
          ∃ k, k < n ∧ reportsComplete (agent.poll k) = true) ∨
        ((∃ msg, (POST request agent).response = errorResponse msg) ∧
          ¬ ∃ k, k < n ∧ reportsComplete (agent.poll k) = true)) := by
  rcases tryBlock_cases request agent with ⟨msg, h⟩ | ⟨message, msg, h⟩ | ⟨message, url, h⟩
  · refine ⟨[], "", 0, Nat.zero_le _, ?_, rfl, rfl, rfl, by simp, by simp, Or.inr ⟨⟨msg, ?_⟩, ?_⟩⟩
    · rw [POST_of_threw _ _ _ _ h]; rfl
    · rw [POST_of_threw _ _ _ _ h]
    · rintro ⟨k, hk, _⟩; omega
  · refine ⟨[startCall message], "", 0, Nat.zero_le _, ?_, ?_, ?_, ?_, by simp, ?_,
      Or.inr ⟨⟨msg, ?_⟩, ?_⟩⟩
    · rw [POST_of_threw _ _ _ _ h]; rfl
    · simpa [pollRounds] using statusCalls_started message "" 0
    · simpa [pollRounds] using sleeps_started message "" 0
    · simpa [pollRounds] using totalDelay_started message "" 0
    · intro ms; simp [startCall]
    · rw [POST_of_threw _ _ _ _ h]
    · rintro ⟨k, hk, _⟩; omega
  · obtain ⟨n, hle, htr, _, hiff, hok⟩ := pollLoop_shape agent url _ 0 [startCall message] rfl
    simp only [Nat.zero_add] at hiff
    refine ⟨[startCall message], url, n, by simpa using hle, ?_, ?_, ?_, ?_, by simp, ?_, ?_⟩
    · rw [POST, h, catchBlock]
      split <;> exact htr
    · simpa [pollRounds] using statusCalls_started message "" 0
    · simpa [pollRounds] using sleeps_started message "" 0
    · simpa [pollRounds] using totalDelay_started message "" 0
    · intro ms; simp [startCall]
    · cases hr : (pollLoop agent url 0 [startCall message]).result with
      | ok r =>
        obtain ⟨ar, har⟩ := hok r hr
        refine Or.inl ⟨⟨ar, ?_⟩, hiff.mp ⟨r, hr⟩⟩
        simp [POST, h, catchBlock, hr, har]
      | error msg =>
        refine Or.inr ⟨⟨msg, ?_⟩, ?_⟩
        · simp [POST, h, catchBlock, hr]
        · intro hex
          obtain ⟨r, hr2⟩ := hiff.mpr hex
          rw [hr] at hr2
          cases hr2


theorem statusCalls_append (a b : List Event) :
    statusCalls (a ++ b) = statusCalls a + statusCalls b := by
  simp [statusCalls, List.countP_append]

theorem sleeps_append (a b : List Event) : sleeps (a ++ b) = sleeps a + sleeps b := by
  simp [sleeps, List.countP_append]

theorem totalDelay_append (a b : List Event) :
    totalDelay (a ++ b) = totalDelay a + totalDelay b := by
  simp [totalDelay]

theorem length_pollRounds (url : String) (n : Nat) : (pollRounds url n).length = 2 * n := by
  induction n with
  | zero => rfl
  | succ n ih => simp [pollRounds, ih]; ring

/-- C8: in every run the body returned has status `success` or `error` and a populated
response (a truthy value: not `undefined`, not `null`, not the empty string), and the
status is `success` exactly when one of the status calls made, all within the budget of
15, returned a success payload with status `complete`; it is `error` in every other run. -/
theorem status_is_success_iff_complete_seen (request : Except String JsVal) (agent : Agent) :
    ((POST request agent).response.body.status = "success" ∨
      (POST request agent).response.body.status = "error") ∧
    (POST request agent).response.body.response.truthy = true ∧
    ((POST request agent).response.body.response ≠ .undefined ∧
      (POST request agent).response.body.response ≠ .null ∧
      (POST request agent).response.body.response ≠ .str "") ∧
    ((POST request agent).response.body.status = "success" ↔
      ∃ k, k < statusCalls (POST request agent).trace ∧ k < 15 ∧
        reportsComplete (agent.poll k) = true) ∧
    ((POST request agent).response.body.status = "error" ↔
      ¬ ∃ k, k < statusCalls (POST request agent).trace ∧ k < 15 ∧
        reportsComplete (agent.poll k) = true) := by
  obtain ⟨head, url, n, hn, htr, hhead, _, _, _, _, hcase⟩ := POST_shape request agent
  have hcalls : statusCalls (POST request agent).trace = n := by
    rw [htr, statusCalls_append, hhead, statusCalls_pollRounds]; simp
  have hn15 : n ≤ 15 := hn
  have hex : (∃ k, k < statusCalls (POST request agent).trace ∧ k < 15 ∧
      reportsComplete (agent.poll k) = true) ↔
      ∃ k, k < n ∧ reportsComplete (agent.poll k) = true := by
    rw [hcalls]
    constructor
    · rintro ⟨k, hk, _, hc⟩; exact ⟨k, hk, hc⟩
    · rintro ⟨k, hk, hc⟩; exact ⟨k, hk, by omega, hc⟩
  rw [hex]
  rcases hcase with ⟨⟨ar, hr⟩, hseen⟩ | ⟨⟨msg, hr⟩, hnot⟩
  · have htruthy : (POST request agent).response.body.response.truthy = true := by
      rw [hr]; exact truthy_orElse ar
    refine ⟨Or.inl (by rw [hr]; rfl), htruthy, truthy_ne _ htruthy, ?_, ?_⟩
    · exact ⟨fun _ => hseen, fun _ => by rw [hr]; rfl⟩
    · constructor
      · intro he; rw [hr] at he; simp [successResponse] at he
      · intro hno; exact absurd hseen hno
  · have htruthy : (POST request agent).response.body.response.truthy = true := by
      rw [hr]; rfl
    refine ⟨Or.inr (by rw [hr]; rfl), htruthy, truthy_ne _ htruthy, ?_, ?_⟩
    · constructor
      · intro he; rw [hr] at he; simp [errorResponse] at he
      · intro hseen; exact absurd hseen hnot
    · exact ⟨fun _ => hnot, fun _ => by rw [hr]; rfl⟩

/-- C9: every run makes at most 15 status calls, each sleep lasts the constant 2000 ms,
there is one sleep per status call, the time slept in total is at most
15 x 2000 ms = 30000 ms, and the run is finite (at most 31 effects). -/
theorem polling_is_bounded (request : Except String JsVal) (agent : Agent) :
    statusCalls (POST request agent).trace ≤ 15 ∧
    (∀ ms, Event.sleep ms ∈ (POST request agent).trace → ms = 2000) ∧
    sleeps (POST request agent).trace = statusCalls (POST request agent).trace ∧
    totalDelay (POST request agent).trace = 2000 * statusCalls (POST request agent).trace ∧
    totalDelay (POST request agent).trace ≤ 15 * 2000 ∧
    15 * 2000 = 30000 ∧
    (POST request agent).trace.length ≤ 31 := by
  obtain ⟨head, url, n, hn, htr, hcalls, hsleeps, hdelay, hlen, hmem, _⟩ :=
    POST_shape request agent
  have hn15 : n ≤ 15 := hn
  rw [htr, statusCalls_append, sleeps_append, totalDelay_append, hcalls, hsleeps, hdelay,
    statusCalls_pollRounds, sleeps_pollRounds, totalDelay_pollRounds, List.length_append,
    length_pollRounds]
  refine ⟨by omega, ?_, rfl, ?_, ?_, rfl, by omega⟩
  · intro ms hms
    rcases List.mem_append.mp hms with h | h
    · exact absurd h (hmem ms)
    · exact sleep_mem_pollRounds url n ms h
  · simp [pollInterval]; ring
  · simp only [pollInterval]; omega

/-- C10 as stated fails: a job that is `waiting` on all 15 attempts times out after
30000 ms of sleep, not 28000 ms. -/
theorem timeout_delay_is_not_28000 :
    (POST sampleRequest ⟨accepted "job-1", fun _ => waiting⟩).response =
      errorResponse timeoutMessage ∧
    statusCalls (POST sampleRequest ⟨accepted "job-1", fun _ => waiting⟩).trace = 15 ∧
    totalDelay (POST sampleRequest ⟨accepted "job-1", fun _ => waiting⟩).trace = 30000 ∧
    totalDelay (POST sampleRequest ⟨accepted "job-1", fun _ => waiting⟩).trace ≠ 14 * 2000 := by
  have hs : Started sampleRequest ⟨accepted "job-1", fun _ => waiting⟩
      (.str "hi") (.str "job-1") "job-1" :=
    ⟨⟨_, rfl, rfl⟩, ⟨_, _, rfl, rfl, rfl, rfl⟩, rfl, rfl⟩
  have h := started_timeout hs (fun _ _ => rfl)
  rw [h]
  have hd := totalDelay_started (.str "hi") (statusUrl "job-1") maxAttempts
  refine ⟨rfl, statusCalls_started _ _ _, ?_, ?_⟩
  · rw [hd]; rfl
  · rw [hd]; decide

/-- C10, amended: when none of the 15 attempts is done (each returns a non-success status
or a success payload that is not complete), the handler sleeps once before each attempt,
the first included: 15 delays of 2000 ms, 30000 ms in all, before it fails with the
timeout. -/
theorem timeout_delay_is_30000 (request : Except String JsVal) (agent : Agent)
    (message requestId : JsVal) (idText : String)
    (hstarted : Started request agent message requestId idText)
    (hall : ∀ j, j < 15 →
      httpFailed (agent.poll j) = true ∨ reportsWaiting (agent.poll j) = true) :
    (POST request agent).response.body.error = some timeoutMessage ∧
    sleeps (POST request agent).trace = 15 ∧
    totalDelay (POST request agent).trace = 15 * 2000 ∧
    totalDelay (POST request agent).trace = 30000 ∧
    (POST request agent).trace.head? = some (startCall message) ∧
    (POST request agent).trace.tail.head? = some (Event.sleep 2000) := by
  have h := started_timeout hstarted (fun j hj => notDone_of_or _ (hall j hj))
  rw [h]
  have hd := totalDelay_started message (statusUrl idText) maxAttempts
  refine ⟨rfl, sleeps_started _ _ _, by rw [hd]; rfl, by rw [hd]; rfl, rfl, ?_⟩
  show (pollRounds (statusUrl idText) (14 + 1)).head? = some (Event.sleep 2000)
  rw [← pollRounds_cons]
  rfl

/-- Witness of C10 amended: HTTP 503 on every status call. -/
theorem timeout_delay_is_30000_witness :
    totalDelay (POST sampleRequest ⟨accepted "job-2", fun _ => refused 503⟩).trace = 30000 ∧
    (POST sampleRequest ⟨accepted "job-2", fun _ => refused 503⟩).response.body.error =
      some timeoutMessage := by
  have h := timeout_delay_is_30000 sampleRequest ⟨accepted "job-2", fun _ => refused 503⟩
    (.str "hi") (.str "job-2") "job-2"
    ⟨⟨_, rfl, rfl⟩, ⟨_, _, rfl, rfl, rfl, rfl⟩, rfl, rfl⟩ (fun _ _ => Or.inl rfl)
  exact ⟨h.2.2.2.1, h.1⟩

/-! ## More on whole runs -/

theorem startCalls_pollRounds (url : String) (n : Nat) : startCalls (pollRounds url n) = 0 := by
  induction n with
  | zero => simp [pollRounds, startCalls]
  | succ n ih =>
    simp only [startCalls] at ih
    simp [pollRounds, startCalls, List.countP_append, ih, List.countP_cons, statusCall,
      Event.isStartCall]

theorem startCalls_started (message : JsVal) (url : String) (n : Nat) :
    startCalls (startCall message :: pollRounds url n) = 1 := by
  have := startCalls_pollRounds url n
  simp only [startCalls] at this ⊢
  simp [List.countP_cons, startCall, Event.isStartCall, this]

theorem mem_pollRounds (url : String) (n : Nat) (e : Event) (h : e ∈ pollRounds url n) :
    e = Event.sleep pollInterval ∨ e = statusCall url := by
  induction n with
  | zero => simp [pollRounds] at h
  | succ n ih =>
    simp only [pollRounds, List.mem_append, List.mem_cons, List.mem_singleton,
      List.not_mem_nil, or_false] at h
    rcases h with h | h | h
    · exact ih h
    · exact Or.inl h
    · exact Or.inr h

/-- After a parsed request the `try` block makes the start call, and then either throws
before any status call or polls for the identifier that the start response carries. -/
theorem tryBlock_parsed (requestBody message : JsVal) (agent : Agent)
    (hmsg : requestBody.getProp "message" = some message) :
    (∃ msg, tryBlock (.ok requestBody) agent = ⟨[startCall message], .error msg⟩) ∨
    (∃ startResponse startData requestId idText,
      agent.start = .ok startResponse ∧ startResponse.json = .ok startData ∧
      startData.getProp "request_id" = some requestId ∧ requestId.toStr = .ok idText ∧
      tryBlock (.ok requestBody) agent =
        pollLoop agent (statusUrl idText) 0 [startCall message]) := by
  cases hs : agent.start with
  | error msg => exact Or.inl ⟨msg, by simp [tryBlock, hmsg, agentUrl_truthy, hs]⟩
  | ok startResponse =>
    cases hok : startResponse.ok with
    | false =>
      exact Or.inl ⟨startFailedMessage startResponse.status, by
        simp [tryBlock, hmsg, agentUrl_truthy, hs, hok]⟩
    | true =>
      cases hj : startResponse.json with
      | error msg =>
        exact Or.inl ⟨msg, by simp [tryBlock, hmsg, agentUrl_truthy, hs, hok, hj]⟩
      | ok startData =>
        cases hid : startData.getProp "request_id" with
        | none =>
          exact Or.inl ⟨destructureError "request_id" "startData" startData, by
            simp [tryBlock, hmsg, agentUrl_truthy, hs, hok, hj, hid]⟩
        | some requestId =>
          cases hu : requestId.truthy with
          | false =>
            exact Or.inl ⟨missingIdMessage, by
              simp [tryBlock, hmsg, agentUrl_truthy, hs, hok, hj, hid, hu]⟩
          | true =>
            cases ht : requestId.toStr with
            | error msg =>
              exact Or.inl ⟨msg, by
                simp [tryBlock, hmsg, agentUrl_truthy, hs, hok, hj, hid, hu, ht]⟩
            | ok idText =>
              exact Or.inr ⟨startResponse, startData, requestId, idText, rfl, hj, hid, ht, by
                simp [tryBlock, hmsg, agentUrl_truthy, hs, hok, hj, hid, hu, ht, statusUrl]⟩

theorem catchBlock_trace (run : Run NextResponse) : (catchBlock run).trace = run.trace := by
  unfold catchBlock
  split <;> rfl

/-! ## Further claims on the chat route -/

/-- C11: when the start call succeeds and the first status call reports `complete`, the
handler returns one success answer after exactly one status call: the effects are the
start call, the delay before the first attempt and that status call, with no sleep after
it. -/
theorem first_poll_complete_single_call (request : Except String JsVal) (agent : Agent)
    (message requestId : JsVal) (idText : String)
    (hstarted : Started request agent message requestId idText)
    (hdone : reportsComplete (agent.poll 0) = true) :
    (POST request agent).response.body.status = "success" ∧
    (POST request agent).response.status = 200 ∧
    statusCalls (POST request agent).trace = 1 ∧
    sleeps (POST request agent).trace = 1 ∧
    (POST request agent).trace =
      [startCall message, Event.sleep 2000, statusCall (statusUrl idText)] ∧
    (POST request agent).trace.getLast? = some (statusCall (statusUrl idText)) := by
  obtain ⟨data, analysis_result, hp, ha⟩ := complete_payload _ hdone
  have h := started_complete hstarted 0 (by decide) (fun j hj => absurd hj (Nat.not_lt_zero j))
    data analysis_result hp hdone ha
  rw [h]
  exact ⟨rfl, rfl, statusCalls_started message _ 1, sleeps_started message _ 1, rfl, rfl⟩

/-- Witness of C11: `complete` on the first status call. -/
theorem first_poll_complete_single_call_witness :
    (POST sampleRequest ⟨accepted "job-7", fun _ => complete "Paid."⟩).response.body.status =
      "success" ∧
    (POST sampleRequest ⟨accepted "job-7", fun _ => complete "Paid."⟩).trace =
      [startCall (.str "hi"), Event.sleep 2000, statusCall (statusUrl "job-7")] := by
  have h := first_poll_complete_single_call sampleRequest
    ⟨accepted "job-7", fun _ => complete "Paid."⟩ (.str "hi") (.str "job-7") "job-7"
    ⟨⟨_, rfl, rfl⟩, ⟨_, _, rfl, rfl, rfl, rfl⟩, rfl, rfl⟩ rfl
  exact ⟨h.1, h.2.2.2.2.1⟩

/-- C12: for `1 ≤ k ≤ 15`, when the first `k - 1` status calls report waiting and the
`k`-th reports `complete`, the handler answers `success` after exactly `k` status calls;
`k = 15` is allowed, so the last attempt of the budget counts.  (Status call `n` is
`agent.poll (n - 1)`.) -/
theorem complete_on_attempt_k (request : Except String JsVal) (agent : Agent)
    (message requestId : JsVal) (idText : String)
    (hstarted : Started request agent message requestId idText)
    (k : Nat) (hk1 : 1 ≤ k) (hk : k ≤ 15)
    (hearly : ∀ j, j < k - 1 → reportsWaiting (agent.poll j) = true)
    (hdone : reportsComplete (agent.poll (k - 1)) = true) :
    (POST request agent).response.body.status = "success" ∧
    (POST request agent).response.status = 200 ∧
    statusCalls (POST request agent).trace = k := by
  obtain ⟨data, analysis_result, hp, ha⟩ := complete_payload _ hdone
  have h := started_complete hstarted (k - 1) (by simp only [maxAttempts]; omega)
    (fun j hj => notDone_of_or _ (Or.inr (hearly j hj))) data analysis_result hp hdone ha
  rw [h]
  refine ⟨rfl, rfl, ?_⟩
  rw [statusCalls_started]
  omega

/-- Witness of C12: 14 waiting answers and `complete` on the 15th status call. -/
theorem complete_on_attempt_k_witness :
    (POST sampleRequest ⟨accepted "job-1",
      fun n => if n = 14 then complete "ok" else waiting⟩).response.body.status = "success" ∧
    statusCalls (POST sampleRequest ⟨accepted "job-1",
      fun n => if n = 14 then complete "ok" else waiting⟩).trace = 15 := by
  have h := complete_on_attempt_k sampleRequest
    ⟨accepted "job-1", fun n => if n = 14 then complete "ok" else waiting⟩
    (.str "hi") (.str "job-1") "job-1"
    ⟨⟨_, rfl, rfl⟩, ⟨_, _, rfl, rfl, rfl, rfl⟩, rfl, rfl⟩ 15 (by decide) (by decide)
    (fun j hj => by
      have h14 : j ≠ 14 := by omega
      simp [h14, waiting, reportsWaiting, payloadStatus, payload, Response.ok,
        JsVal.getProp, List.lookup, JsVal.strictEqStr])
    rfl
  exact ⟨h.1, h.2.2⟩

/-- C13 as stated fails: a request whose body is not JSON gets the degraded answer without
any start call. -/
theorem unparsable_request_makes_no_start_call :
    (POST (.error "Unexpected end of JSON input") ⟨accepted "job-1", fun _ => waiting⟩).trace
      = [] ∧
    startCalls (POST (.error "Unexpected end of JSON input")
      ⟨accepted "job-1", fun _ => waiting⟩).trace = 0 ∧
    startCalls (POST (.error "Unexpected end of JSON input")
      ⟨accepted "job-1", fun _ => waiting⟩).trace ≠ 1 := by
  refine ⟨rfl, rfl, ?_⟩
  show (0 : Nat) ≠ 1
  decide

/-- C13, amended: for a request whose body can be read (it parses and yields `message`)
the handler makes exactly one start call, the first effect of the run: a `POST` to
`{base}/api/send-request` with body `{query: message}`, the message as it came; a request
whose body cannot be read gets no call at all.  Every status call of a run is a `GET` of
`{base}/api/get-response/{request_id}` carrying the `request_id` exactly as the start
response returned it, neither inspected nor transformed (a string is its own text, a
number the text JavaScript prints for it), and it is the same call on every attempt. -/
theorem one_start_call_same_identifier (request : Except String JsVal) (agent : Agent) :
    (∀ requestBody message, request = .ok requestBody →
      requestBody.getProp "message" = some message →
      (POST request agent).trace.head? =
        some (Event.fetch "POST" (AI_AGENT_URL ++ "/api/send-request")
          (some (.obj [("query", message)]))) ∧
      startCalls (POST request agent).trace = 1) ∧
    ((∀ requestBody, request = .ok requestBody → requestBody.getProp "message" = none) →
      (POST request agent).trace = []) ∧
    (∀ e, e ∈ (POST request agent).trace → e.isStatusCall = true →
      ∃ startResponse startData requestId idText,
        agent.start = .ok startResponse ∧ startResponse.json = .ok startData ∧
        startData.getProp "request_id" = some requestId ∧ requestId.toStr = .ok idText ∧
        e = Event.fetch "GET" (AI_AGENT_URL ++ "/api/get-response/" ++ idText) none) ∧
    (∀ e1 e2, e1 ∈ (POST request agent).trace → e2 ∈ (POST request agent).trace →
      e1.isStatusCall = true → e2.isStatusCall = true → e1 = e2) ∧
    (∀ s, (JsVal.str s).toStr = .ok s) ∧
    (∀ t, (JsVal.num t).toStr = .ok t) := by
  have hcalls : ∀ e, e ∈ (POST request agent).trace → e.isStatusCall = true →
      ∃ startResponse startData requestId idText,
        agent.start = .ok startResponse ∧ startResponse.json = .ok startData ∧
        startData.getProp "request_id" = some requestId ∧ requestId.toStr = .ok idText ∧
        e = Event.fetch "GET" (AI_AGENT_URL ++ "/api/get-response/" ++ idText) none := by
    intro e he hcall
    cases request with
    | error msg =>
      have h0 : (POST (.error msg) agent).trace = [] := rfl
      rw [h0] at he
      cases he
    | ok requestBody =>
      cases hmsg : requestBody.getProp "message" with
      | none =>
        have h0 : (POST (.ok requestBody) agent).trace = [] := by
          simp [POST, tryBlock, hmsg, catchBlock]
        rw [h0] at he
        cases he
      | some message =>
        rcases tryBlock_parsed requestBody message agent hmsg with
          ⟨msg, h⟩ | ⟨startResponse, startData, requestId, idText, hs, hj, hid, ht, h⟩
        · rw [POST, catchBlock_trace, h] at he
          simp only [List.mem_singleton] at he
          subst he
          simp [startCall, Event.isStatusCall] at hcall
        · obtain ⟨n, _, htr, _⟩ :=
            pollLoop_shape agent (statusUrl idText) _ 0 [startCall message] rfl
          rw [POST, catchBlock_trace, h, htr] at he
          refine ⟨startResponse, startData, requestId, idText, hs, hj, hid, ht, ?_⟩
          rcases List.mem_append.mp he with he | he
          · simp only [List.mem_singleton] at he
            subst he
            simp [startCall, Event.isStatusCall] at hcall
          · rcases mem_pollRounds _ _ _ he with he | he
            · subst he; simp [Event.isStatusCall] at hcall
            · rw [he]; rfl
  refine ⟨?_, ?_, hcalls, ?_, fun s => rfl, fun t => rfl⟩
  · intro requestBody message hreq hmsg
    subst hreq
    rcases tryBlock_parsed requestBody message agent hmsg with
      ⟨msg, h⟩ | ⟨startResponse, startData, requestId, idText, hs, hj, hid, ht, h⟩
    · rw [POST, catchBlock_trace, h]
      exact ⟨rfl, by simpa [pollRounds] using startCalls_started message "" 0⟩
    · obtain ⟨n, _, htr, _⟩ :=
        pollLoop_shape agent (statusUrl idText) _ 0 [startCall message] rfl
      rw [POST, catchBlock_trace, h, htr]
      exact ⟨rfl, startCalls_started message _ n⟩
  · intro hnone
    cases request with
    | error msg => rfl
    | ok requestBody =>
      have hmsg := hnone requestBody rfl
      simp [POST, tryBlock, hmsg, catchBlock]
  · intro e1 e2 h1 h2 c1 c2
    obtain ⟨r1, d1, i1, t1, hs1, hj1, hid1, ht1, he1⟩ := hcalls e1 h1 c1
    obtain ⟨r2, d2, i2, t2, hs2, hj2, hid2, ht2, he2⟩ := hcalls e2 h2 c2
    rw [hs1] at hs2
    cases hs2
    rw [hj1] at hj2
    cases hj2
    rw [hid1] at hid2
    cases hid2
    rw [ht1] at ht2
    cases ht2
    rw [he1, he2]

/-- Witness of C13 amended: a job with the numeric identifier `1e+21` that stays waiting. -/
theorem one_start_call_same_identifier_witness :
    startCalls (POST sampleRequest
      ⟨.ok ⟨200, .ok (.obj [("request_id", .num "1e+21")])⟩, fun _ => waiting⟩).trace = 1 ∧
    (POST sampleRequest
      ⟨.ok ⟨200, .ok (.obj [("request_id", .num "1e+21")])⟩, fun _ => waiting⟩).trace.head? =
      some (Event.fetch "POST" "http://0.0.0.0:8001/api/send-request"
        (some (.obj [("query", .str "hi")]))) := by
  have h := (one_start_call_same_identifier sampleRequest
    ⟨.ok ⟨200, .ok (.obj [("request_id", .num "1e+21")])⟩, fun _ => waiting⟩).1
    (.obj [("message", .str "hi")]) (.str "hi") rfl rfl
  exact ⟨h.2, h.1⟩

end ChatRoute

namespace PaymentRoute

open ChatRoute

theorem getProp_missing (body : JsVal) (key : String) (v : JsVal)
    (hmissing : fieldMissing body key = true) (h : body.getProp key = some v) :
    v = .undefined := by
  cases body with
  | undefined => simp [JsVal.getProp] at h
  | null => simp [JsVal.getProp] at h
  | bool b => simpa [JsVal.getProp] using h.symm
  | num n => simpa [JsVal.getProp] using h.symm
  | str s => simpa [JsVal.getProp] using h.symm
  | arr items => simpa [JsVal.getProp] using h.symm
  | obj fields =>
    simp only [JsVal.getProp, Option.some.injEq] at h
    rw [← h]
    cases hl : List.lookup key fields with
    | none => rfl
    | some w => simp [fieldMissing, hl] at hmissing

/-- With a falsy required field the `try` block answers at once, calling nothing. -/
theorem tryBlock_falsy (transactionData sender receiver amount : JsVal) (service : Service)
    (hs : transactionData.getProp "sender" = some sender)
    (hr : transactionData.getProp "receiver" = some receiver)
    (ha : transactionData.getProp "amount" = some amount)
    (hf : sender.truthy = false ∨ receiver.truthy = false ∨ amount.truthy = false) :
    tryBlock (.ok transactionData) service =
      ⟨[], .ok ⟨.obj [("error", .str "Missing required transaction data")], 400⟩⟩ := by
  have hcond : (!sender.truthy || !receiver.truthy || !amount.truthy) = true := by
    rcases hf with h | h | h <;> simp [h]
  simp only [tryBlock, hs, hr, ha, hcond, if_true]

/-- With the required fields truthy the `try` block goes on to the validation. -/
theorem tryBlock_truthy (transactionData sender receiver amount : JsVal) (service : Service)
    (hs : transactionData.getProp "sender" = some sender)
    (hr : transactionData.getProp "receiver" = some receiver)
    (ha : transactionData.getProp "amount" = some amount)
    (hts : sender.truthy = true) (htr : receiver.truthy = true) (hta : amount.truthy = true) :
    tryBlock (.ok transactionData) service =
      match service.validateTransaction transactionData with
      | .error msg => ⟨[Call.validateTransaction transactionData], .error msg⟩
      | .ok validation =>
        match validation.getProp "valid", validation.getProp "errors" with
        | some valid, some errors =>
          if !valid.truthy then
            ⟨[Call.validateTransaction transactionData],
              .ok ⟨.obj [("error", .str "Transaction validation failed"),
                ("details", errors.or (.arr []))], 400⟩⟩
          else
            match service.processPayment transactionData with
            | .error msg =>
              ⟨[Call.validateTransaction transactionData,
                Call.processPayment transactionData], .error msg⟩
            | .ok result =>
              match result.getProp "transactionId" with
              | none =>
                ⟨[Call.validateTransaction transactionData,
                  Call.processPayment transactionData],
                  .error (readError "transactionId" result)⟩
              | some _ =>
                ⟨[Call.validateTransaction transactionData,
                  Call.processPayment transactionData], .ok ⟨result, 200⟩⟩
        | _, _ =>
          ⟨[Call.validateTransaction transactionData],
            .error (readError "valid" validation)⟩ := by
  simp only [tryBlock, hs, hr, ha, hts, htr, hta]
  rfl

/-- With the required fields truthy the reply is never the missing-data reply. -/
theorem truthy_not_missing_reply (transactionData sender receiver amount : JsVal)
    (service : Service)
    (hs : transactionData.getProp "sender" = some sender)
    (hr : transactionData.getProp "receiver" = some receiver)
    (ha : transactionData.getProp "amount" = some amount)
    (hts : sender.truthy = true) (htr : receiver.truthy = true) (hta : amount.truthy = true) :
    ¬ isMissingDataReply (POST (.ok transactionData) service).reply := by
  rw [POST, tryBlock_truthy transactionData sender receiver amount service hs hr ha hts htr hta]
  intro hmiss
  cases hv : service.validateTransaction transactionData with
  | error msg => simp [hv, catchBlock, isMissingDataReply] at hmiss
  | ok validation =>
    cases h1 : validation.getProp "valid" with
    | none => simp [hv, h1, catchBlock, isMissingDataReply] at hmiss
    | some valid =>
      cases h2 : validation.getProp "errors" with
      | none => simp [hv, h1, h2, catchBlock, isMissingDataReply] at hmiss
      | some errors =>
        cases hvt : valid.truthy with
        | false =>
          simp only [hv, h1, h2, hvt, catchBlock] at hmiss
          simp [isMissingDataReply, JsVal.getProp, List.lookup] at hmiss
        | true =>
          cases hp : service.processPayment transactionData with
          | error msg => simp [hv, h1, h2, hvt, hp, catchBlock, isMissingDataReply] at hmiss
          | ok result =>
            cases h3 : result.getProp "transactionId" with
            | none => simp [hv, h1, h2, hvt, hp, h3, catchBlock, isMissingDataReply] at hmiss
            | some t => simp [hv, h1, h2, hvt, hp, h3, catchBlock, isMissingDataReply] at hmiss

/-- C14 as stated fails: a body with all three fields present and `amount` equal to 0 gets
the missing-data reply. -/
theorem zero_amount_counts_as_missing :
    isMissingDataReply (POST (.ok (samplePayment "0")) sampleService).reply ∧
    ¬ (fieldMissing (samplePayment "0") "sender" = true ∨
      fieldMissing (samplePayment "0") "receiver" = true ∨
      fieldMissing (samplePayment "0") "amount" = true) := by
  refine ⟨⟨rfl, rfl⟩, ?_⟩
  decide

/-- C14, amended: for a request body whose fields can be read (any parsed body but `null`),
the handler returns HTTP 400 with error `Missing required transaction data` if and only if
one of `sender`, `receiver`, `amount` is missing or otherwise falsy (`null`, `false`, `0`,
the empty string), and in that case it calls neither `validateTransaction` nor
`processPayment`. -/
theorem missing_data_reply_iff_falsy_field (transactionData sender receiver amount : JsVal)
    (service : Service)
    (hs : transactionData.getProp "sender" = some sender)
    (hr : transactionData.getProp "receiver" = some receiver)
    (ha : transactionData.getProp "amount" = some amount) :
    (isMissingDataReply (POST (.ok transactionData) service).reply ↔
      (sender.truthy = false ∨ receiver.truthy = false ∨ amount.truthy = false)) ∧
    ((sender.truthy = false ∨ receiver.truthy = false ∨ amount.truthy = false) →
      (POST (.ok transactionData) service).calls = [] ∧
      (POST (.ok transactionData) service).reply =
        ⟨.obj [("error", .str "Missing required transaction data")], 400⟩) ∧
    ((fieldMissing transactionData "sender" = true ∨
        fieldMissing transactionData "receiver" = true ∨
        fieldMissing transactionData "amount" = true) →
      (sender.truthy = false ∨ receiver.truthy = false ∨ amount.truthy = false)) := by
  have hfalsy : (sender.truthy = false ∨ receiver.truthy = false ∨ amount.truthy = false) →
      POST (.ok transactionData) service =
        ⟨[], ⟨.obj [("error", .str "Missing required transaction data")], 400⟩⟩ := by
    intro hf
    rw [POST, tryBlock_falsy transactionData sender receiver amount service hs hr ha hf]
    rfl
  refine ⟨⟨?_, ?_⟩, ?_, ?_⟩
  · intro hmiss
    by_contra hno
    simp only [not_or, Bool.not_eq_false] at hno
    exact truthy_not_missing_reply transactionData sender receiver amount service hs hr ha
      hno.1 hno.2.1 hno.2.2 hmiss
  · intro hf
    rw [hfalsy hf]
    exact ⟨rfl, rfl⟩
  · intro hf
    rw [hfalsy hf]
    exact ⟨rfl, rfl⟩
  · rintro (h | h | h)
    · exact Or.inl (by rw [getProp_missing _ _ _ h hs]; rfl)
    · exact Or.inr (Or.inl (by rw [getProp_missing _ _ _ h hr]; rfl))
    · exact Or.inr (Or.inr (by rw [getProp_missing _ _ _ h ha]; rfl))

/-- Witness of C14 amended: a body without `receiver`. -/
theorem missing_data_reply_iff_falsy_field_witness :
    isMissingDataReply (POST (.ok (.obj [("sender", .str "alice"), ("amount", .num "5")]))
      sampleService).reply ∧
    (POST (.ok (.obj [("sender", .str "alice"), ("amount", .num "5")])) sampleService).calls = [] :=
  have h := missing_data_reply_iff_falsy_field
    (.obj [("sender", .str "alice"), ("amount", .num "5")]) (.str "alice") .undefined (.num "5")
    sampleService rfl rfl rfl
  ⟨h.1.mpr (Or.inr (Or.inl rfl)), (h.2.1 (Or.inr (Or.inl rfl))).1⟩

/-- C15: with the required fields present (truthy), a validation that reports `valid` as
false gets HTTP 400 with error `Transaction validation failed` and the reported errors as
details (the empty list when none are reported), and `processPayment` is not called; a
validation that reports valid gets the result of `processPayment` unchanged; and whatever
the `try` block throws becomes HTTP 500 with error `Payment processing failed`. -/
theorem validation_gates_payment (transactionData sender receiver amount : JsVal)
    (service : Service)
    (hs : transactionData.getProp "sender" = some sender)
    (hr : transactionData.getProp "receiver" = some receiver)
    (ha : transactionData.getProp "amount" = some amount)
    (hts : sender.truthy = true) (htr : receiver.truthy = true) (hta : amount.truthy = true) :
    (∀ validation valid errors, service.validateTransaction transactionData = .ok validation →
      validation.getProp "valid" = some valid → validation.getProp "errors" = some errors →
      valid.truthy = false →
      (POST (.ok transactionData) service).reply =
        ⟨.obj [("error", .str "Transaction validation failed"),
          ("details", if errors.truthy then errors else .arr [])], 400⟩ ∧
      (POST (.ok transactionData) service).calls =
        [Call.validateTransaction transactionData]) ∧
    (∀ validation valid result, service.validateTransaction transactionData = .ok validation →
      validation.getProp "valid" = some valid → valid.truthy = true →
      service.processPayment transactionData = .ok result →
      result ≠ .null → result ≠ .undefined →
      (POST (.ok transactionData) service).reply = ⟨result, 200⟩ ∧
      (POST (.ok transactionData) service).calls =
        [Call.validateTransaction transactionData, Call.processPayment transactionData]) ∧
    (∀ msg, (service.validateTransaction transactionData = .error msg ∨
        ∃ validation valid, service.validateTransaction transactionData = .ok validation ∧
          validation.getProp "valid" = some valid ∧ valid.truthy = true ∧
          service.processPayment transactionData = .error msg) →
      (POST (.ok transactionData) service).reply =
        ⟨.obj [("error", .str "Payment processing failed"),
          ("message", .str (if msg = "" then "Internal server error" else msg))], 500⟩) ∧
    (∀ msg, (tryBlock (.ok transactionData) service).result = .error msg →
      (POST (.ok transactionData) service).reply.status = 500 ∧
      (POST (.ok transactionData) service).reply.body.getProp "error" =
        some (.str "Payment processing failed")) := by
  have hcatch : ∀ msg : String, (JsVal.str msg).or (.str "Internal server error") =
      .str (if msg = "" then "Internal server error" else msg) := by
    intro msg
    by_cases hm : msg = "" <;> simp [JsVal.or, JsVal.truthy, hm]
  refine ⟨?_, ?_, ?_, ?_⟩
  · intro validation valid errors hv h1 h2 hvt
    rw [POST, tryBlock_truthy transactionData sender receiver amount service hs hr ha hts htr
      hta]
    simp only [hv, h1, h2, hvt, catchBlock, JsVal.or]
    exact ⟨rfl, rfl⟩
  · intro validation valid result hv h1 hvt hp hnull hundef
    obtain ⟨errors, h2⟩ := getProp_total validation "valid" "errors" valid h1
    have h3 : ∃ t, result.getProp "transactionId" = some t := by
      cases result <;> simp [JsVal.getProp] at hnull hundef ⊢
    obtain ⟨t, h3⟩ := h3
    rw [POST, tryBlock_truthy transactionData sender receiver amount service hs hr ha hts htr
      hta]
    simp only [hv, h1, h2, hvt, hp, h3, catchBlock]
    exact ⟨rfl, rfl⟩
  · intro msg hsrc
    rw [POST, tryBlock_truthy transactionData sender receiver amount service hs hr ha hts htr
      hta]
    rcases hsrc with hv | ⟨validation, valid, hv, h1, hvt, hp⟩
    · simp only [hv, catchBlock, hcatch]
    · obtain ⟨errors, h2⟩ := getProp_total validation "valid" "errors" valid h1
      simp only [hv, h1, h2, hvt, hp, catchBlock, hcatch]
      rfl
  · intro msg hthrow
    have h : (POST (.ok transactionData) service).reply =
        ⟨.obj [("error", .str "Payment processing failed"),
          ("message", (JsVal.str msg).or (.str "Internal server error"))], 500⟩ := by
      simp only [POST, catchBlock, hthrow]
    rw [h]
    exact ⟨rfl, rfl⟩

/-- Witness of C15: a validation that reports one error, and one that reports none. -/
theorem validation_gates_payment_witness :
    (POST (.ok (samplePayment "250")) (rejectingService (.arr [.str "Blocked account"]))).reply =
      ⟨.obj [("error", .str "Transaction validation failed"),
        ("details", .arr [.str "Blocked account"])], 400⟩ ∧
    (POST (.ok (samplePayment "250")) (rejectingService .undefined)).reply =
      ⟨.obj [("error", .str "Transaction validation failed"), ("details", .arr [])], 400⟩ ∧
    (POST (.ok (samplePayment "250")) sampleService).reply =
      ⟨.obj [("transactionId", .str "TXN1"), ("status", .str "success")], 200⟩ := by
  have h1 := (validation_gates_payment (samplePayment "250") (.str "alice") (.str "bob")
    (.num "250") (rejectingService (.arr [.str "Blocked account"])) rfl rfl rfl rfl rfl rfl).1
    _ (.bool false) (.arr [.str "Blocked account"]) rfl rfl rfl rfl
  have h2 := (validation_gates_payment (samplePayment "250") (.str "alice") (.str "bob")
    (.num "250") (rejectingService .undefined) rfl rfl rfl rfl rfl rfl).1
    _ (.bool false) .undefined rfl rfl rfl rfl
  have h3 := (validation_gates_payment (samplePayment "250") (.str "alice") (.str "bob")
    (.num "250") sampleService rfl rfl rfl rfl rfl rfl).2.1
    _ (.bool true) _ rfl rfl rfl rfl (by simp) (by simp)
  exact ⟨h1.1, h2.1, h3.1⟩

end PaymentRoute

namespace AIAgentService

open ChatRoute

/-! ## Texts that do not mention `fetch` -/

theorem digitChar_isDigit (d : Nat) (h : d < 10) : (Nat.digitChar d).isDigit = true := by
  interval_cases d <;> decide

theorem toDigitsCore_isDigit (fuel : Nat) :
    ∀ (n : Nat) (acc : List Char), (∀ c ∈ acc, c.isDigit = true) →
      ∀ c ∈ Nat.toDigitsCore 10 fuel n acc, c.isDigit = true := by
  induction fuel with
  | zero => intro n acc hacc c hc; simpa [Nat.toDigitsCore] using hacc c (by simpa [Nat.toDigitsCore] using hc)
  | succ fuel ih =>
    intro n acc hacc c hc
    simp only [Nat.toDigitsCore] at hc
    have hcons : ∀ c ∈ Nat.digitChar (n % 10) :: acc, c.isDigit = true := by
      intro c hc
      rcases List.mem_cons.mp hc with h | h
      · rw [h]; exact digitChar_isDigit _ (Nat.mod_lt _ (by decide))
      · exact hacc c h
    split at hc
    · exact hcons c hc
    · exact ih _ _ hcons c hc

theorem repr_isDigit (n : Nat) : ∀ c ∈ (toString n).toList, c.isDigit = true := by
  intro c hc
  have : (toString n).toList = Nat.toDigitsCore 10 (n + 1) n [] := rfl
  rw [this] at hc
  exact toDigitsCore_isDigit _ _ _ (by simp) c hc

theorem not_includes_of_no_f (message : String) (h : 'f' ∉ message.toList) :
    includes message "fetch" = false := by
  simp only [includes, decide_eq_false_iff_not]
  intro hpart
  exact h (hpart.subset (by decide))

theorem statusText_not_includes (n : Nat) :
    includes ("HTTP error! status: " ++ toString n) "fetch" = false := by
  apply not_includes_of_no_f
  intro hmem
  rw [String.toList, String.data_append, List.mem_append] at hmem
  rcases hmem with h | h
  · revert h; decide
  · have := repr_isDigit n 'f' h
    revert this; decide

theorem readSuccessError_not_includes (v : JsVal) :
    includes (readError "success" v) "fetch" = false := by
  cases v <;> rfl

/-- The catch block of `processPayment` passes on a result and rethrows an error that does
not mention `fetch`. -/
theorem processPayment_of_try (env : Env) (getMockResponse : JsVal → Except String JsVal)
    (transactionData : JsVal) :
    (∀ result, processPaymentTry env transactionData = .ok result →
      processPayment env getMockResponse transactionData = .ok result) ∧
    (∀ msg, processPaymentTry env transactionData = .error msg →
      includes msg "fetch" = false →
      processPayment env getMockResponse transactionData = .error msg) ∧
    (∀ msg, processPaymentTry env transactionData = .error msg →
      includes msg "fetch" = true →
      processPayment env getMockResponse transactionData = getMockResponse transactionData) := by
  refine ⟨?_, ?_, ?_⟩
  · intro result h; simp [processPayment, h]
  · intro msg h hi; simp [processPayment, h, hi]
  · intro msg h hi; simp [processPayment, h, hi]

/-- C16, the code at the failing input: the request fails at the network level with a
message that does not mention `fetch` (`Load failed`, the text of a failed request in
Safari); the error is rethrown, where the claim and the comment on line 36 promise the
mock response. -/
theorem network_error_without_fetch_is_rethrown :
    processPayment (sampleEnv (.error "Load failed")) sampleMock (.obj [("amount", .num "5")]) =
      .error "Load failed" ∧
    processPayment (sampleEnv (.error "Load failed")) sampleMock (.obj [("amount", .num "5")]) ≠
      sampleMock (.obj [("amount", .num "5")]) := by
  have h : processPayment (sampleEnv (.error "Load failed")) sampleMock
      (.obj [("amount", .num "5")]) = .error "Load failed" := by
    exact (processPayment_of_try (sampleEnv (.error "Load failed")) sampleMock
      (.obj [("amount", .num "5")])).2.1 "Load failed" rfl (by decide)
  refine ⟨h, ?_⟩
  rw [h]
  simp [sampleMock]

/-- What `processPayment` does, case by case: a network error whose message contains
`fetch` gives the result of `getMockResponse` for the same transaction; a network error
with any other message is rethrown, as is the error of a non-success HTTP status; and a
success answer gives `handleAIResponse` of the body. -/
theorem processPayment_cases (env : Env)
    (getMockResponse : JsVal → Except String JsVal) (transactionData : JsVal) :
    (∀ msg, env.fetch (processPaymentRequest env transactionData) = .error msg →
      includes msg "fetch" = true →
      processPayment env getMockResponse transactionData = getMockResponse transactionData) ∧
    (∀ msg, env.fetch (processPaymentRequest env transactionData) = .error msg →
      includes msg "fetch" = false →
      processPayment env getMockResponse transactionData = .error msg) ∧
    (∀ response, env.fetch (processPaymentRequest env transactionData) = .ok response →
      response.ok = false →
      processPayment env getMockResponse transactionData =
        .error ("HTTP error! status: " ++ toString response.status)) ∧
    (∀ response body, env.fetch (processPaymentRequest env transactionData) = .ok response →
      response.ok = true → response.json = .ok body →
      processPayment env getMockResponse transactionData =
        handleAIResponse env.generatedId body) := by
  obtain ⟨hok, hrethrow, hmock⟩ := processPayment_of_try env getMockResponse transactionData
  refine ⟨?_, ?_, ?_, ?_⟩
  · intro msg hf hi
    exact hmock msg (by simp [processPaymentTry, hf]) hi
  · intro msg hf hi
    exact hrethrow msg (by simp [processPaymentTry, hf]) hi
  · intro response hf hno
    exact hrethrow _ (by simp [processPaymentTry, hf, hno]) (statusText_not_includes _)
  · intro response body hf hyes hj
    have htry : processPaymentTry env transactionData =
        handleAIResponse env.generatedId body := by
      simp [processPaymentTry, hf, hyes, hj]
    cases hh : handleAIResponse env.generatedId body with
    | ok result => exact hok result (by rw [htry, hh])
    | error msg =>
      have hmsg : msg = readError "success" body := by
        unfold handleAIResponse at hh
        split at hh
        · simpa using hh.symm
        · simp at hh
      exact hrethrow msg (by rw [htry, hh])
        (by rw [hmsg]; exact readSuccessError_not_includes _)

/-- An example of the cases: `Failed to fetch` gives the mock response, HTTP 502 is
rethrown. -/
theorem processPayment_cases_example :
    processPayment (sampleEnv (.error "Failed to fetch")) sampleMock (.obj [("amount", .num "5")])
      = sampleMock (.obj [("amount", .num "5")]) ∧
    processPayment (sampleEnv (refused 502)) sampleMock (.obj [("amount", .num "5")]) =
      .error "HTTP error! status: 502" := by
  have h1 := (processPayment_cases (sampleEnv (.error "Failed to fetch")) sampleMock
    (.obj [("amount", .num "5")])).1 "Failed to fetch" rfl (by decide)
  have h2 := (processPayment_cases (sampleEnv (refused 502)) sampleMock
    (.obj [("amount", .num "5")])).2.2.1 _ rfl rfl
  exact ⟨h1, h2⟩

/-- C17: `validateTransaction` always returns a value: the fallback
`{valid: true, warnings: [], riskScore: "low"}` when the request fails (the fetch rejects,
the status is not a success, or the body is not JSON), and the agent's JSON body itself
otherwise. -/
theorem validateTransaction_never_throws (env : Env) (transactionData : JsVal) :
    (∀ msg, env.fetch ⟨"POST", env.baseURL ++ "/api/validate-transaction",
        some transactionData⟩ = .error msg →
      validateTransaction env transactionData =
        .obj [("valid", .bool true), ("warnings", .arr []), ("riskScore", .str "low")]) ∧
    (∀ response, env.fetch ⟨"POST", env.baseURL ++ "/api/validate-transaction",
        some transactionData⟩ = .ok response → response.ok = false →
      validateTransaction env transactionData =
        .obj [("valid", .bool true), ("warnings", .arr []), ("riskScore", .str "low")]) ∧
    (∀ response msg, env.fetch ⟨"POST", env.baseURL ++ "/api/validate-transaction",
        some transactionData⟩ = .ok response → response.ok = true →
      response.json = .error msg →
      validateTransaction env transactionData =
        .obj [("valid", .bool true), ("warnings", .arr []), ("riskScore", .str "low")]) ∧
    (∀ response body, env.fetch ⟨"POST", env.baseURL ++ "/api/validate-transaction",
        some transactionData⟩ = .ok response → response.ok = true →
      response.json = .ok body →
      validateTransaction env transactionData = body) ∧
    (∀ msg, validateTransactionTry env transactionData = .error msg →
      validateTransaction env transactionData =
        .obj [("valid", .bool true), ("warnings", .arr []), ("riskScore", .str "low")]) := by
  refine ⟨?_, ?_, ?_, ?_, ?_⟩
  · intro msg hf
    simp [validateTransaction, validateTransactionTry, hf, validationFallback]
  · intro response hf hno
    simp [validateTransaction, validateTransactionTry, hf, hno, validationFallback]
  · intro response msg hf hyes hj
    simp [validateTransaction, validateTransactionTry, hf, hyes, hj, validationFallback]
  · intro response body hf hyes hj
    simp [validateTransaction, validateTransactionTry, hf, hyes, hj]
  · intro msg ht
    simp [validateTransaction, ht, validationFallback]

/-! ## The key of a pair of currency codes -/

theorem code_no_underscore (code : String) (h : isCurrencyCode code = true) :
    '_' ∉ code.toList := by
  intro hmem
  simp only [isCurrencyCode, List.all_eq_true] at h
  have := h '_' hmem
  revert this
  decide

theorem key_toList (a b : String) : (a ++ "_" ++ b).toList = a.toList ++ '_' :: b.toList := by
  simp [String.toList, String.data_append]

theorem split_unique (a : List Char) :
    ∀ (a2 b b2 : List Char), '_' ∉ a → '_' ∉ a2 → a ++ '_' :: b = a2 ++ '_' :: b2 →
      a = a2 ∧ b = b2 := by
  induction a with
  | nil =>
    intro a2 b b2 _ h2 h
    cases a2 with
    | nil => simpa using h
    | cons c a2 =>
      simp only [List.nil_append, List.cons_append, List.cons.injEq] at h
      exact absurd (by rw [← h.1]; simp) h2
  | cons c a ih =>
    intro a2 b b2 h1 h2 h
    cases a2 with
    | nil =>
      simp only [List.nil_append, List.cons_append, List.cons.injEq] at h
      exact absurd (by rw [h.1]; simp) h1
    | cons c2 a2 =>
      simp only [List.cons_append, List.cons.injEq] at h
      have := ih a2 b b2 (fun hm => h1 (List.mem_cons_of_mem _ hm))
        (fun hm => h2 (List.mem_cons_of_mem _ hm)) h.2
      exact ⟨by rw [h.1, this.1], this.2⟩

/-- The key of two currency codes is a table key only for that pair of codes. -/
theorem key_eq_iff (a b x y : String) (ha : isCurrencyCode a = true)
    (hx : isCurrencyCode x = true) :
    a ++ "_" ++ b = x ++ "_" ++ y ↔ a = x ∧ b = y := by
  constructor
  · intro h
    have hl := congrArg String.toList h
    rw [key_toList, key_toList] at hl
    obtain ⟨h1, h2⟩ := split_unique _ _ _ _ (code_no_underscore a ha)
      (code_no_underscore x hx) hl
    exact ⟨String.ext h1, String.ext h2⟩
  · rintro ⟨rfl, rfl⟩; rfl

theorem key_not_inherited (a b : String) (ha : isCurrencyCode a = true)
    (hb : isCurrencyCode b = true) : a ++ "_" ++ b ∉ objectPrototypeNames := by
  have hcount : (a ++ "_" ++ b).toList.count '_' = 1 := by
    rw [key_toList, List.count_append, List.count_cons_self,
      List.count_eq_zero_of_not_mem (code_no_underscore a ha),
      List.count_eq_zero_of_not_mem (code_no_underscore b hb)]
  intro hmem
  have hall : ∀ name ∈ objectPrototypeNames, name.toList.count '_' ≠ 1 := by decide
  exact hall _ hmem hcount

/-- C20: `getExchangeRate` always returns a value: when the exchange-rate request fails
(the fetch rejects, the status is not a success, or the body is not JSON) it returns
`getMockExchangeRate(from, to)`, whose rate is 0.012 for INR to USD, 83.25 for USD to INR,
0.011 for INR to EUR, 90.15 for EUR to INR, and 1 for every other pair of currency codes
(letters and digits), a currency converted to itself included. -/
theorem exchange_rate_falls_back_to_mock (env : Env) (fromCurrency toCurrency : String) :
    (∀ msg, env.fetch ⟨"GET", env.baseURL ++ "/api/exchange-rate", none⟩ = .error msg →
      getExchangeRate env fromCurrency toCurrency =
        getMockExchangeRate env.nowIso fromCurrency toCurrency) ∧
    (∀ response, env.fetch ⟨"GET", env.baseURL ++ "/api/exchange-rate", none⟩ = .ok response →
      response.ok = false →
      getExchangeRate env fromCurrency toCurrency =
        getMockExchangeRate env.nowIso fromCurrency toCurrency) ∧
    (∀ response msg,
      env.fetch ⟨"GET", env.baseURL ++ "/api/exchange-rate", none⟩ = .ok response →
      response.ok = true → response.json = .error msg →
      getExchangeRate env fromCurrency toCurrency =
        getMockExchangeRate env.nowIso fromCurrency toCurrency) ∧
    (getMockExchangeRate env.nowIso "INR" "USD" = .entry 0.012 env.nowIso ∧
      getMockExchangeRate env.nowIso "USD" "INR" = .entry 83.25 env.nowIso ∧
      getMockExchangeRate env.nowIso "INR" "EUR" = .entry 0.011 env.nowIso ∧
      getMockExchangeRate env.nowIso "EUR" "INR" = .entry 90.15 env.nowIso) ∧
    (isCurrencyCode fromCurrency = true → isCurrencyCode toCurrency = true →
      (fromCurrency, toCurrency) ∉
        [("INR", "USD"), ("USD", "INR"), ("INR", "EUR"), ("EUR", "INR")] →
      getMockExchangeRate env.nowIso fromCurrency toCurrency = .entry 1 env.nowIso) ∧
    (isCurrencyCode fromCurrency = true →
      getMockExchangeRate env.nowIso fromCurrency fromCurrency = .entry 1 env.nowIso) := by
  have other : ∀ a b : String, isCurrencyCode a = true → isCurrencyCode b = true →
      (a, b) ∉ [("INR", "USD"), ("USD", "INR"), ("INR", "EUR"), ("EUR", "INR")] →
      getMockExchangeRate env.nowIso a b = .entry 1 env.nowIso := by
    intro a b ha hb hne
    simp only [List.mem_cons, Prod.mk.injEq, List.mem_singleton, List.not_mem_nil,
      or_false, not_or] at hne
    have k1 : a ++ "_" ++ b ≠ "INR_USD" := fun h =>
      hne.1 ((key_eq_iff a b "INR" "USD" ha (by decide)).mp h)
    have k2 : a ++ "_" ++ b ≠ "USD_INR" := fun h =>
      hne.2.1 ((key_eq_iff a b "USD" "INR" ha (by decide)).mp h)
    have k3 : a ++ "_" ++ b ≠ "INR_EUR" := fun h =>
      hne.2.2.1 ((key_eq_iff a b "INR" "EUR" ha (by decide)).mp h)
    have k4 : a ++ "_" ++ b ≠ "EUR_INR" := fun h =>
      hne.2.2.2 ((key_eq_iff a b "EUR" "INR" ha (by decide)).mp h)
    simp only [getMockExchangeRate, k1, k2, k3, k4, key_not_inherited a b ha hb, if_false]
  refine ⟨?_, ?_, ?_, ⟨rfl, rfl, rfl, rfl⟩, other fromCurrency toCurrency, ?_⟩
  · intro msg hf
    simp [getExchangeRate, getExchangeRateTry, hf]
  · intro response hf hno
    simp [getExchangeRate, getExchangeRateTry, hf, hno]
  · intro response msg hf hyes hj
    simp [getExchangeRate, getExchangeRateTry, hf, hyes, hj]
  · intro hc
    apply other fromCurrency fromCurrency hc hc
    simp only [List.mem_cons, Prod.mk.injEq, List.mem_singleton, List.not_mem_nil,
      or_false, not_or]
    refine ⟨?_, ?_, ?_, ?_⟩ <;> rintro ⟨h1, h2⟩ <;> rw [h1] at h2 <;> revert h2 <;> decide

/-- Witness of C20: an unreachable agent, asked for GBP to JPY and for USD to USD. -/
theorem exchange_rate_falls_back_to_mock_witness :
    getExchangeRate (sampleEnv unreachable) "GBP" "JPY" =
      .entry 1 "2025-01-01T00:00:00.000Z" ∧
    getExchangeRate (sampleEnv unreachable) "USD" "USD" =
      .entry 1 "2025-01-01T00:00:00.000Z" ∧
    getExchangeRate (sampleEnv unreachable) "USD" "INR" =
      .entry 83.25 "2025-01-01T00:00:00.000Z" := by
  have h := exchange_rate_falls_back_to_mock (sampleEnv unreachable) "GBP" "JPY"
  have h2 := exchange_rate_falls_back_to_mock (sampleEnv unreachable) "USD" "USD"
  have h3 := exchange_rate_falls_back_to_mock (sampleEnv unreachable) "USD" "INR"
  refine ⟨?_, ?_, ?_⟩
  · rw [h.1 "fetch failed" rfl]
    exact h.2.2.2.2.1 (by decide) (by decide) (by decide)
  · rw [h2.1 "fetch failed" rfl]
    exact h2.2.2.2.2.2 (by decide)
  · rw [h3.1 "fetch failed" rfl]
    exact h3.2.2.2.1.2.1

end AIAgentService

namespace TransactionUtils

open ChatRoute

theorem lookup_append_new (fields : List (String × JsVal)) (key : String) (value : JsVal)
    (h : fields.any (fun kv => kv.1 == key) = false) :
    (fields ++ [(key, value)]).lookup key = some value := by
  induction fields with
  | nil => simp [List.lookup]
  | cons kv rest ih =>
    obtain ⟨k, v⟩ := kv
    simp only [List.any_cons, Bool.or_eq_false_iff] at h
    have hk : (key == k) = false := by
      have := h.1
      simp only [beq_eq_false_iff_ne, ne_eq] at this ⊢
      exact fun e => this e.symm
    simp only [List.cons_append, List.lookup, hk]
    exact ih h.2

theorem replace_hit (key : String) (value v : JsVal) :
    (if (key, v).1 == key then (key, value) else (key, v)) = (key, value) := by
  simp

theorem replace_miss (key k : String) (value v : JsVal) (hk : k ≠ key) :
    (if (k, v).1 == key then (key, value) else (k, v)) = (k, v) := by
  simp [hk]

theorem lookup_map_replace (fields : List (String × JsVal)) (key : String) (value : JsVal)
    (h : fields.any (fun kv => kv.1 == key) = true) :
    (fields.map (fun kv => if kv.1 == key then (key, value) else kv)).lookup key =
      some value := by
  induction fields with
  | nil => simp at h
  | cons kv rest ih =>
    obtain ⟨k, v⟩ := kv
    by_cases hk : k = key
    · subst hk
      rw [List.map_cons, replace_hit]
      simp [List.lookup]
    · have hk1 : (k == key) = false := by simpa using hk
      have hk2 : (key == k) = false := by simpa using fun e : key = k => hk e.symm
      simp only [List.any_cons, hk1, Bool.false_or] at h
      rw [List.map_cons, replace_miss key k value v hk]
      simp only [List.lookup, hk2]
      exact ih h

/-- The property that is set reads back as the value given. -/
theorem lookup_setField_self (fields : List (String × JsVal)) (key : String) (value : JsVal) :
    (setField fields key value).lookup key = some value := by
  unfold setField
  split
  · next h => exact lookup_map_replace fields key value h
  · next h =>
    exact lookup_append_new fields key value (by simpa only [Bool.not_eq_true] using h)

/-- Every other property is left as it was. -/
theorem lookup_setField_other (fields : List (String × JsVal)) (key other : String)
    (value : JsVal) (hne : other ≠ key) :
    (setField fields key value).lookup other = fields.lookup other := by
  have hne1 : (other == key) = false := by simpa using hne
  have hmap : (fields.map (fun kv => if kv.1 == key then (key, value) else kv)).lookup other =
      fields.lookup other := by
    induction fields with
    | nil => rfl
    | cons kv rest ih =>
      obtain ⟨k, v⟩ := kv
      by_cases hk : k = key
      · subst hk
        rw [List.map_cons, replace_hit]
        simp only [List.lookup, hne1, ih]
      · rw [List.map_cons, replace_miss key k value v hk]
        simp only [List.lookup, ih]
  have happ : (fields ++ [(key, value)]).lookup other = fields.lookup other := by
    clear hmap
    induction fields with
    | nil => simp only [List.nil_append, List.lookup, hne1]
    | cons kv rest ih =>
      obtain ⟨k, v⟩ := kv
      rw [List.cons_append]
      cases hok : other == k with
      | true => simp only [List.lookup, hok]
      | false => simp only [List.lookup, hok]; exact ih
  unfold setField
  split
  · exact hmap
  · exact happ

theorem parse_of_holdsList (platform : Platform) (item : Option String)
    (existing : List JsVal) (h : HoldsList platform item existing) :
    platform.parse (itemOrEmptyList item) = .ok (.arr existing) := by
  rcases h with ⟨text, hitem, hne, hparse⟩ | ⟨hitem, hnil, hparse⟩
  · subst hitem
    have hb : (text != "") = true := by simpa using hne
    simp only [itemOrEmptyList, hb, if_true]
    exact hparse
  · subst hnil
    rcases hitem with h | h <;> subst h <;> exact hparse

/-- C18: when local storage holds a list `existing` (an item whose text `JSON.parse` reads
as that list, or no item and the empty list) and accepts the write, `saveTransaction`
stores the list made of the new record followed by the entries of `existing` in their
order, cut to its first 50 entries, and returns the new record, which is the transaction
with `id` and `timestamp` set by the function and every other property as given; so the
stored list has at most 50 entries and the new record comes first. -/
theorem saveTransaction_prepends_and_caps (platform : Platform) (item : Option String)
    (transactionData : List (String × JsVal)) (existing : List JsVal)
    (hholds : HoldsList platform item existing)
    (haccepts : platform.accepts = true) :
    (saveTransaction platform item transactionData).item =
      some (platform.stringify
        (.arr ((newRecord platform transactionData :: existing).take 50))) ∧
    (saveTransaction platform item transactionData).returned =
      newRecord platform transactionData ∧
    ((newRecord platform transactionData :: existing).take 50).length ≤ 50 ∧
    (newRecord platform transactionData :: existing).take 50 =
      newRecord platform transactionData :: existing.take 49 ∧
    (∃ fields, newRecord platform transactionData = .obj fields ∧
      fields.lookup "id" = some (.str (toString platform.nowMs)) ∧
      fields.lookup "timestamp" = some (.str platform.nowIso) ∧
      ∀ key, key ≠ "id" → key ≠ "timestamp" →
        fields.lookup key = transactionData.lookup key) := by
  have hparse := parse_of_holdsList platform item existing hholds
  have hcut : (if (newRecord platform transactionData :: existing).length > 50 then
      (newRecord platform transactionData :: existing).take 50
      else newRecord platform transactionData :: existing) =
      (newRecord platform transactionData :: existing).take 50 := by
    split
    · rfl
    · next h => exact (List.take_of_length_le (by omega)).symm
  refine ⟨?_, ?_, ?_, rfl, ?_⟩
  · simp only [saveTransaction, hparse, haccepts, if_true, hcut]
  · simp only [saveTransaction, hparse, haccepts, if_true]
  · simp [List.length_take]
  · refine ⟨_, rfl, ?_, lookup_setField_self _ _ _, ?_⟩
    · rw [lookup_setField_other _ _ _ _ (by decide)]
      exact lookup_setField_self _ _ _
    · intro key h1 h2
      rw [lookup_setField_other _ _ _ _ h2, lookup_setField_other _ _ _ _ h1]

/-- Witness of C18: a store whose item holds 50 records, then a store with no item. -/
theorem saveTransaction_prepends_and_caps_witness :
    (saveTransaction (samplePlatform (List.replicate 50 (.obj [("id", .str "old")])) true)
      (some "stored") [("amount", .num "5"), ("timestamp", .str "then")]).item =
      some "list of 50" ∧
    (saveTransaction (samplePlatform (List.replicate 50 (.obj [("id", .str "old")])) true)
      (some "stored") [("amount", .num "5"), ("timestamp", .str "then")]).returned =
      .obj [("amount", .num "5"), ("timestamp", .str "2023-11-14T22:13:20.000Z"),
        ("id", .str "1700000000000")] ∧
    (saveTransaction (samplePlatform (List.replicate 50 (.obj [("id", .str "old")])) true)
      none [("amount", .num "5")]).item = some "list of 1" := by
  have h := saveTransaction_prepends_and_caps
    (samplePlatform (List.replicate 50 (.obj [("id", .str "old")])) true) (some "stored")
    [("amount", .num "5"), ("timestamp", .str "then")]
    (List.replicate 50 (.obj [("id", .str "old")]))
    (Or.inl ⟨"stored", rfl, by decide, rfl⟩) rfl
  have h0 := saveTransaction_prepends_and_caps
    (samplePlatform (List.replicate 50 (.obj [("id", .str "old")])) true) none
    [("amount", .num "5")] [] (Or.inr ⟨Or.inl rfl, rfl, rfl⟩) rfl
  exact ⟨h.1.trans rfl, h.2.1, h0.1.trans rfl⟩

/-- C19, the code at two failing inputs: `ABCD1234567` is 4 letters followed by 7 digits
and is rejected, `ABCD0ABCDEF` is not and is accepted. -/
theorem validateIFSC_differs_from_stated_format :
    validateIFSC "ABCD1234567" = false ∧ isFourLettersSevenDigits "ABCD1234567" = true ∧
    validateIFSC "ABCD0ABCDEF" = true ∧ isFourLettersSevenDigits "ABCD0ABCDEF" = false ∧
    validateIFSC "sbin0001234" = true := by
  decide

end TransactionUtils

namespace ChatRoute

/-! ## The order of effects -/

theorem pollRounds_eq_flatten (url : String) (n : Nat) :
    pollRounds url n =
      (List.replicate n [Event.sleep pollInterval, statusCall url]).flatten := by
  induction n with
  | zero => rfl
  | succ n ih =>
    rw [← pollRounds_cons, ih, List.replicate_succ, List.flatten_cons]

theorem pollRounds_getElem (url : String) (n : Nat) :
    ∀ i, i < n →
      (pollRounds url n)[2 * i]? = some (Event.sleep pollInterval) ∧
      (pollRounds url n)[2 * i + 1]? = some (statusCall url) := by
  induction n with
  | zero => intro i hi; omega
  | succ n ih =>
    intro i hi
    rw [← pollRounds_cons]
    cases i with
    | zero => exact ⟨by simp, by simp⟩
    | succ i =>
      have h := ih i (by omega)
      have e1 : 2 * (i + 1) = (2 * i + 1) + 1 := by ring
      rw [e1]
      exact ⟨by simpa using h.1, by simpa using h.2⟩

/-- C22 as stated fails: a request whose body is the JSON value `null` throws at the
destructuring of line 5, and the run has no effect at all, so no start call either. -/
theorem null_request_has_empty_trace :
    (POST (.ok .null) ⟨accepted "job-1", fun _ => waiting⟩).trace = [] ∧
    (∀ message rest,
      (POST (.ok .null) ⟨accepted "job-1", fun _ => waiting⟩).trace ≠
        startCall message :: rest) ∧
    (POST (.ok .null) ⟨accepted "job-1", fun _ => waiting⟩).response.status = 500 := by
  refine ⟨rfl, ?_, rfl⟩
  intro message rest h
  have h0 : (POST (.ok .null) ⟨accepted "job-1", fun _ => waiting⟩).trace = [] := rfl
  rw [h0] at h
  cases h

/-- C22, amended: the effect trace of every run whose request parses and yields `message`
is one start call followed by `n ≤ 15` repetitions of (sleep of 2000 ms, status call), in
strict alternation; status call `j + 2` is made only when the response of status call
`j + 1` has been read and was not done, and each status call comes right after a sleep. -/
theorem trace_is_start_then_rounds (requestBody message : JsVal) (agent : Agent)
    (hmsg : requestBody.getProp "message" = some message) :
    ∃ url n, n ≤ 15 ∧
      (POST (.ok requestBody) agent).trace =
        startCall message :: (List.replicate n [Event.sleep 2000, statusCall url]).flatten ∧
      (∀ i, i < n →
        (POST (.ok requestBody) agent).trace[2 * i + 1]? = some (Event.sleep 2000) ∧
        (POST (.ok requestBody) agent).trace[2 * i + 2]? = some (statusCall url)) ∧
      (POST (.ok requestBody) agent).trace.length = 1 + 2 * n ∧
      (∀ j, j + 1 < n → notDone (agent.poll j) = true) := by
  have key : ∃ url n, n ≤ 15 ∧
      (POST (.ok requestBody) agent).trace = startCall message :: pollRounds url n ∧
      (∀ j, j + 1 < n → notDone (agent.poll j) = true) := by
    rcases tryBlock_parsed requestBody message agent hmsg with
      ⟨msg, h⟩ | ⟨startResponse, startData, requestId, idText, _, _, _, _, h⟩
    · exact ⟨"", 0, by omega, by rw [POST, catchBlock_trace, h]; rfl, fun j hj => by omega⟩
    · obtain ⟨n, hle, htr, hnd, _⟩ :=
        pollLoop_shape agent (statusUrl idText) _ 0 [startCall message] rfl
      refine ⟨statusUrl idText, n, by simpa [maxAttempts] using hle, ?_, ?_⟩
      · rw [POST, catchBlock_trace, h, htr]; rfl
      · intro j hj
        simpa using hnd j hj
  obtain ⟨url, n, hn, htr, hnd⟩ := key
  refine ⟨url, n, hn, ?_, ?_, ?_, hnd⟩
  · rw [htr, pollRounds_eq_flatten]; rfl
  · intro i hi
    rw [htr]
    have h := pollRounds_getElem url n i hi
    exact ⟨by simpa [pollInterval] using h.1, by simpa using h.2⟩
  · rw [htr, List.length_cons, length_pollRounds]; omega

/-- Witness of C22 amended: a job that completes on the second status call. -/
theorem trace_is_start_then_rounds_witness :
    ∃ url n, n ≤ 15 ∧
      (POST sampleRequest ⟨accepted "job-1",
        fun k => if k = 1 then complete "ok" else waiting⟩).trace =
        startCall (.str "hi") :: (List.replicate n [Event.sleep 2000, statusCall url]).flatten := by
  obtain ⟨url, n, hn, htr, _⟩ := trace_is_start_then_rounds (.obj [("message", .str "hi")])
    (.str "hi") ⟨accepted "job-1", fun k => if k = 1 then complete "ok" else waiting⟩ rfl
  exact ⟨url, n, hn, htr⟩

end ChatRoute

namespace TransactionUtils

/-- C23: `getTransactionStatus` returns `pending` exactly when the transaction has a valid
timestamp and fewer than 30000 ms have elapsed since; otherwise it returns `success` or
`failed`, and `failed` only when the amount is above 1000 and the random draw is below
0.1; so a transaction with an amount of at most 1000 that is at least 30 seconds old is
always `success`. -/
theorem status_pending_iff_recent (now : Int) (draw : ℚ) (transaction : Transaction) :
    (getTransactionStatus now draw transaction = "pending" ↔
      ∃ t, transaction.time = some t ∧ now - t < 30000) ∧
    (getTransactionStatus now draw transaction = "pending" ∨
      getTransactionStatus now draw transaction = "success" ∨
      getTransactionStatus now draw transaction = "failed") ∧
    (getTransactionStatus now draw transaction = "failed" →
      transaction.amount.gt 1000 = true ∧ draw < 0.1 ∧
      ¬ ∃ t, transaction.time = some t ∧ now - t < 30000) ∧
    (∀ t amount, transaction.time = some t → 30000 ≤ now - t →
      transaction.amount = .fin amount → amount ≤ 1000 →
      getTransactionStatus now draw transaction = "success") := by
  have hlt : (timeDiff now transaction).lt 30000 = true ↔
      ∃ t, transaction.time = some t ∧ now - t < 30000 := by
    unfold timeDiff
    cases ht : transaction.time with
    | none => simp [JsNumber.lt]
    | some t =>
      simp only [JsNumber.lt, decide_eq_true_eq, Option.some.injEq, exists_eq_left']
      constructor
      · intro h; exact_mod_cast h
      · intro h; exact_mod_cast h
  by_cases hp : (timeDiff now transaction).lt 30000 = true
  · have hres : getTransactionStatus now draw transaction = "pending" := by
      simp [getTransactionStatus, hp]
    refine ⟨⟨fun _ => hlt.mp hp, fun _ => hres⟩, Or.inl hres, ?_, ?_⟩
    · intro hf; rw [hres] at hf; exact absurd hf (by decide)
    · intro t amount ht hold _ _
      obtain ⟨t2, ht2, hlt2⟩ := hlt.mp hp
      rw [ht] at ht2
      cases ht2
      omega
  · have hnp : ¬ ∃ t, transaction.time = some t ∧ now - t < 30000 := fun h => hp (hlt.mpr h)
    by_cases hf : (transaction.amount.gt 1000 && decide (draw < 0.1)) = true
    · have hres : getTransactionStatus now draw transaction = "failed" := by
        simp only [getTransactionStatus, hp, hf, Bool.false_eq_true, if_false, if_true]
      have hf2 := hf
      simp only [Bool.and_eq_true, decide_eq_true_eq] at hf2
      refine ⟨⟨fun h => ?_, fun h => absurd h hnp⟩, Or.inr (Or.inr hres),
        fun _ => ⟨hf2.1, hf2.2, hnp⟩, ?_⟩
      · rw [hres] at h; exact absurd h (by decide)
      · intro t amount _ _ ha hle
        rw [ha] at hf2
        have := hf2.1
        simp only [JsNumber.gt, decide_eq_true_eq] at this
        exact absurd hle (not_le.mpr this)
    · have hres : getTransactionStatus now draw transaction = "success" := by
        simp only [getTransactionStatus, hp, hf, Bool.false_eq_true, if_false]
      refine ⟨⟨fun h => ?_, fun h => absurd h hnp⟩, Or.inr (Or.inl hres), ?_,
        fun _ _ _ _ _ _ => hres⟩
      · rw [hres] at h; exact absurd h (by decide)
      · intro h; rw [hres] at h; exact absurd h (by decide)

end TransactionUtils

namespace PayPage

open TransactionUtils

theorem trim_eq_empty_iff (s : String) :
    (trim s == "") = true ↔ nonBlank s = false := by
  have hall : nonBlank s = false ↔ ∀ c ∈ s.toList, isWhiteSpace c = true := by
    simp [nonBlank]
  rw [hall, beq_iff_eq]
  constructor
  · intro h
    have hl : ((s.toList.dropWhile isWhiteSpace).reverse.dropWhile isWhiteSpace).reverse = [] := by
      have := congrArg String.toList h
      simpa [trim] using this
    have h2 : ∀ x ∈ s.toList.dropWhile isWhiteSpace, isWhiteSpace x = true := by
      have := List.dropWhile_eq_nil_iff.mp (List.reverse_eq_nil_iff.mp hl)
      intro x hx
      exact this x (List.mem_reverse.mpr hx)
    have h3 : s.toList.dropWhile isWhiteSpace = [] := by
      by_contra hne
      have hhead := List.head_dropWhile_not isWhiteSpace s.toList hne
      have := h2 _ (List.head_mem hne)
      rw [this] at hhead
      cases hhead
    exact List.dropWhile_eq_nil_iff.mp h3
  · intro h
    have h3 : s.toList.dropWhile isWhiteSpace = [] := List.dropWhile_eq_nil_iff.mpr h
    have h4 : ((s.toList.dropWhile isWhiteSpace).reverse.dropWhile isWhiteSpace).reverse
        = [] := by
      rw [h3]; rfl
    unfold trim
    rw [h4]

theorem gt_of_not_le (x : JsNumber) (c : ℚ) (h : x ≠ .nan) : x.gt c = !x.le c := by
  cases x with
  | nan => exact absurd rfl h
  | negInf => rfl
  | posInf => rfl
  | fin value =>
    simp only [JsNumber.gt, JsNumber.le]
    by_cases hv : value ≤ c
    · simp [hv, not_lt.mpr hv]
    · simp [hv, not_le.mp hv]

theorem le_of_le (x : JsNumber) (a b : ℚ) (hab : a ≤ b) (h : x.le a = true) :
    x.gt b = false := by
  cases x with
  | nan => rfl
  | negInf => rfl
  | posInf => simp [JsNumber.le] at h
  | fin value =>
    simp only [JsNumber.le, decide_eq_true_eq] at h
    simp only [JsNumber.gt, decide_eq_false_iff_not, not_lt]
    exact le_trans h hab

/-- The value returned and the amount error, computed from the five tests of the code. -/
theorem validateForm_eq (imports : Imports) (paymentData : PaymentData) :
    (FrontendPay.validateForm imports paymentData).result =
      (!(trim paymentData.senderName == "") &&
        imports.validateAccountNumber paymentData.senderAccount &&
        imports.validateIFSC paymentData.senderIFSC &&
        !(paymentData.amount == "" || (imports.parseFloat paymentData.amount).le 0) &&
        !(imports.parseFloat paymentData.amount).gt 10000) ∧
    (FrontendPay.validateForm imports paymentData).errors.amount =
      (if paymentData.amount == "" || (imports.parseFloat paymentData.amount).le 0 then
        some "Valid amount is required"
      else if (imports.parseFloat paymentData.amount).gt 10000 then
        some "Amount exceeds maximum limit of $10,000"
      else none) := by
  cases h1 : (trim paymentData.senderName == "") <;>
  cases h2 : imports.validateAccountNumber paymentData.senderAccount <;>
  cases h3 : imports.validateIFSC paymentData.senderIFSC <;>
  cases h4 : (paymentData.amount == "" || (imports.parseFloat paymentData.amount).le 0) <;>
  cases h5 : (imports.parseFloat paymentData.amount).gt 10000 <;>
  simp [FrontendPay.validateForm, FormErrors.isEmpty, h1, h2, h3, h4, h5]

/-- C21, the code at the failing input: with the text `abc` as amount, which
`Number.parseFloat` turns into `NaN`, neither comparison of lines 127-129 holds, no amount
error is recorded and the form is accepted, where the claim (and the error text
`Valid amount is required`) has a non-numeric amount refused. -/
theorem non_numeric_amount_is_accepted :
    sampleParseFloat "abc" = .nan ∧
    (sampleParseFloat "abc").gt 0 = false ∧
    (FrontendPay.validateForm (frontendImports sampleParseFloat) (sampleForm "abc")).result
      = true ∧
    (FrontendPay.validateForm (frontendImports sampleParseFloat)
      (sampleForm "abc")).errors.amount = none := by
  have h := validateForm_eq (frontendImports sampleParseFloat) (sampleForm "abc")
  refine ⟨rfl, rfl, ?_, ?_⟩
  · rw [h.1]; rfl
  · rw [h.2]; rfl

/-- What `validateForm` accepts when the amount is empty or is read as a number by
`Number.parseFloat`: it returns true if and only if the sender name is non-blank, both
validators accept, and the amount is entered, greater than 0 and not above 10000; an
amount above 10000 records `Amount exceeds maximum limit of $10,000`, a missing or
non-positive amount records `Valid amount is required`; and the two copies of the page
compute the same function. -/
theorem validateForm_accepts_iff (imports : Imports) (paymentData : PaymentData)
    (hnum : paymentData.amount = "" ∨ imports.parseFloat paymentData.amount ≠ .nan) :
    ((FrontendPay.validateForm imports paymentData).result = true ↔
      nonBlank paymentData.senderName = true ∧
      imports.validateAccountNumber paymentData.senderAccount = true ∧
      imports.validateIFSC paymentData.senderIFSC = true ∧
      paymentData.amount ≠ "" ∧
      (imports.parseFloat paymentData.amount).gt 0 = true ∧
      (imports.parseFloat paymentData.amount).le 10000 = true) ∧
    (paymentData.amount ≠ "" → (imports.parseFloat paymentData.amount).gt 10000 = true →
      (FrontendPay.validateForm imports paymentData).errors.amount =
        some "Amount exceeds maximum limit of $10,000") ∧
    ((paymentData.amount = "" ∨ (imports.parseFloat paymentData.amount).le 0 = true) →
      (FrontendPay.validateForm imports paymentData).errors.amount =
        some "Valid amount is required") ∧
    CryptoPlatformPay.validateForm imports paymentData =
      FrontendPay.validateForm imports paymentData := by
  obtain ⟨hres, herr⟩ := validateForm_eq imports paymentData
  have hname : (!(trim paymentData.senderName == "")) = nonBlank paymentData.senderName := by
    cases hb : nonBlank paymentData.senderName with
    | false => simp [(trim_eq_empty_iff _).mpr hb]
    | true =>
      cases ht : (trim paymentData.senderName == "") with
      | false => rfl
      | true => rw [(trim_eq_empty_iff _).mp ht] at hb; cases hb
  refine ⟨?_, ?_, ?_, rfl⟩
  · rw [hres, hname]
    by_cases hempty : paymentData.amount = ""
    · simp [hempty]
    · have hx : imports.parseFloat paymentData.amount ≠ .nan := by
        rcases hnum with h | h
        · exact absurd h hempty
        · exact h
      have hbeq : (paymentData.amount == "") = false := by simpa using hempty
      rw [hbeq, Bool.false_or, ← gt_of_not_le _ 0 hx,
        show (!(imports.parseFloat paymentData.amount).gt 10000) =
          (imports.parseFloat paymentData.amount).le 10000 by
          rw [gt_of_not_le _ 10000 hx, Bool.not_not]]
      simp [hempty, and_assoc]
  · intro hne hgt
    have hx : imports.parseFloat paymentData.amount ≠ .nan := by
      intro h; rw [h] at hgt; simp [JsNumber.gt] at hgt
    have hle : (imports.parseFloat paymentData.amount).le 0 = false := by
      cases hle : (imports.parseFloat paymentData.amount).le 0 with
      | false => rfl
      | true =>
        rw [le_of_le _ 0 10000 (by norm_num) hle] at hgt
        cases hgt
    have hbeq : (paymentData.amount == "") = false := by simpa using hne
    rw [herr]
    simp [hbeq, hle, hgt]
  · intro h
    rw [herr]
    have : (paymentData.amount == "" || (imports.parseFloat paymentData.amount).le 0) = true := by
      rcases h with h | h
      · simp [h]
      · simp [h]
    simp [this]

/-- An example: a filled form with amount `250`, and one with `20000`. -/
theorem validateForm_accepts_iff_example :
    (FrontendPay.validateForm (frontendImports sampleParseFloat) (sampleForm "250")).result
      = true ∧
    (FrontendPay.validateForm (frontendImports sampleParseFloat)
      (sampleForm "20000")).errors.amount = some "Amount exceeds maximum limit of $10,000" := by
  have h1 := validateForm_accepts_iff (frontendImports sampleParseFloat) (sampleForm "250")
    (Or.inr (by simp [frontendImports, sampleForm, sampleParseFloat]))
  have h2 := validateForm_accepts_iff (frontendImports sampleParseFloat) (sampleForm "20000")
    (Or.inr (by simp [frontendImports, sampleForm, sampleParseFloat]))
  refine ⟨h1.1.mpr ⟨by decide, by decide, by decide, by decide, ?_, ?_⟩,
    h2.2.1 (by decide) ?_⟩
  · show (sampleParseFloat "250").gt 0 = true
    rw [show sampleParseFloat "250" = .fin 250 from rfl]
    norm_num [JsNumber.gt]
  · show (sampleParseFloat "250").le 10000 = true
    rw [show sampleParseFloat "250" = .fin 250 from rfl]
    norm_num [JsNumber.le]
  · show (sampleParseFloat "20000").gt 10000 = true
    rw [show sampleParseFloat "20000" = .fin 20000 from rfl]
    norm_num [JsNumber.gt]

end PayPage
